import Mathlib

/-!
Verification of the trivia-rewards core of the xn-agent repository.

Strings are modelled as lists of Unicode code points (`Str := List Nat`);
machine integers and JavaScript numbers are modelled as `Int`/`Nat`.
Each definition is a shallow embedding of the corresponding TypeScript
function, keeping the source's name where Lean allows it.
-/

namespace XnAgent

/-- A JavaScript string, modelled as its list of Unicode code points. -/
abbrev Str := List Nat

/-! ### Character classes

These model the character classes used by the source's regular
expressions and by `String.prototype.trim`.  JavaScript's whitespace
class covers ASCII whitespace, NBSP, the Ogham space mark, the
U+2000..U+200A range, line/paragraph separators, narrow NBSP, medium
mathematical space, ideographic space and the BOM. -/


/-- The JavaScript whitespace class (regex class backslash-s and the set
trimmed by `trim`). -/
def isJsWs (n : Nat) : Bool :=
  n == 9 || n == 10 || n == 11 || n == 12 || n == 13 || n == 32 ||
  n == 0xa0 || n == 0x1680 || (decide (0x2000 ≤ n) && decide (n ≤ 0x200a)) ||
  n == 0x2028 || n == 0x2029 || n == 0x202f || n == 0x205f || n == 0x3000 ||
  n == 0xfeff

/-- JavaScript line terminators (the characters a regex dot does not match). -/
def isLineTerm (n : Nat) : Bool :=
  n == 10 || n == 13 || n == 0x2028 || n == 0x2029

/-- Lower-case ASCII letters and digits: the character class kept by the
source's replacement regex (written there as a negated class over
lower-case letters, digits and whitespace). -/
def isLowerAlnum (n : Nat) : Bool :=
  (decide (97 ≤ n) && decide (n ≤ 122)) || (decide (48 ≤ n) && decide (n ≤ 57))

/-- Models `String.prototype.toLowerCase` restricted to the ASCII and
Latin-1 ranges (A-Z and the accented capitals except the multiplication
sign map down by 0x20); identity elsewhere.  The full Unicode mapping is
also the identity on the canonical output alphabet of the normalizer,
which is all the idempotence proof relies on. -/
def jsToLower (n : Nat) : Nat :=
  if 65 ≤ n ∧ n ≤ 90 then n + 32
  else if 0xc0 ≤ n ∧ n ≤ 0xde ∧ n ≠ 0xd7 then n + 32
  else n

/-- Models Unicode NFKD decomposition restricted to code points below
0x100 (the Latin-1 accented letters decompose into a base letter plus a
combining mark in the U+0300 block); code points without a decomposition
are mapped to themselves.  Real NFKD also agrees with the identity on the
normalizer's canonical output alphabet. -/
def decomposeChar (n : Nat) : List Nat :=
  if n < 0xc0 then [n] else
  if n = 0xc0 then [65, 0x300] else if n = 0xc1 then [65, 0x301] else
  if n = 0xc2 then [65, 0x302] else if n = 0xc3 then [65, 0x303] else
  if n = 0xc4 then [65, 0x308] else if n = 0xc5 then [65, 0x30a] else
  if n = 0xc7 then [67, 0x327] else
  if n = 0xc8 then [69, 0x300] else if n = 0xc9 then [69, 0x301] else
  if n = 0xca then [69, 0x302] else if n = 0xcb then [69, 0x308] else
  if n = 0xcc then [73, 0x300] else if n = 0xcd then [73, 0x301] else
  if n = 0xce then [73, 0x302] else if n = 0xcf then [73, 0x308] else
  if n = 0xd1 then [78, 0x303] else
  if n = 0xd2 then [79, 0x300] else if n = 0xd3 then [79, 0x301] else
  if n = 0xd4 then [79, 0x302] else if n = 0xd5 then [79, 0x303] else
  if n = 0xd6 then [79, 0x308] else
  if n = 0xd9 then [85, 0x300] else if n = 0xda then [85, 0x301] else
  if n = 0xdb then [85, 0x302] else if n = 0xdc then [85, 0x308] else
  if n = 0xdd then [89, 0x301] else
  if n = 0xe0 then [97, 0x300] else if n = 0xe1 then [97, 0x301] else
  if n = 0xe2 then [97, 0x302] else if n = 0xe3 then [97, 0x303] else
  if n = 0xe4 then [97, 0x308] else if n = 0xe5 then [97, 0x30a] else
  if n = 0xe7 then [99, 0x327] else
  if n = 0xe8 then [101, 0x300] else if n = 0xe9 then [101, 0x301] else
  if n = 0xea then [101, 0x302] else if n = 0xeb then [101, 0x308] else
  if n = 0xec then [105, 0x300] else if n = 0xed then [105, 0x301] else
  if n = 0xee then [105, 0x302] else if n = 0xef then [105, 0x308] else
  if n = 0xf1 then [110, 0x303] else
  if n = 0xf2 then [111, 0x300] else if n = 0xf3 then [111, 0x301] else
  if n = 0xf4 then [111, 0x302] else if n = 0xf5 then [111, 0x303] else
  if n = 0xf6 then [111, 0x308] else
  if n = 0xf9 then [117, 0x300] else if n = 0xfa then [117, 0x301] else
  if n = 0xfb then [117, 0x302] else if n = 0xfc then [117, 0x308] else
  if n = 0xfd then [121, 0x301] else if n = 0xff then [121, 0x308] else
  [n]

/-- Models `String.prototype.normalize` with argument NFKD, on the
modelled subset of decompositions. -/
def nfkd (s : Str) : Str := (s.map decomposeChar).flatten

/-- The combining-mark block U+0300..U+036F removed by the source. -/
def isCombining (n : Nat) : Bool :=
  decide (0x300 ≤ n) && decide (n ≤ 0x36f)

/-- One character step of the source's replacement of every character
outside the class of lower-case letters, digits and whitespace by a
space. -/
def replaceNonAlnum (n : Nat) : Nat :=
  if isLowerAlnum n || isJsWs n then n else 32

/-- Replacement of maximal whitespace runs by a single space, as done by
the source's global regex replace; the boolean records whether the
previous character was whitespace. -/
def collapseAux (prevWs : Bool) : Str → Str
  | [] => []
  | c :: t =>
    if isJsWs c then
      if prevWs then collapseAux true t else 32 :: collapseAux true t
    else c :: collapseAux false t

/-- Collapse every whitespace run to a single space. -/
def collapseWs (s : Str) : Str := collapseAux false s

/-- Remove trailing whitespace. -/
def rtrimWs : Str → Str
  | [] => []
  | c :: t =>
    match rtrimWs t with
    | [] => if isJsWs c then [] else [c]
    | r => c :: r

/-- Models `String.prototype.trim`: strip leading and trailing
whitespace. -/
def jsTrim (s : Str) : Str := rtrimWs (s.dropWhile isJsWs)

/-- Embedding of `normalizeAnswer` from `src/triviaRewards/helpers.ts`:
lower-case, NFKD-decompose, strip combining marks, replace every
character outside lower-case letters, digits and whitespace by a space,
collapse whitespace runs, and trim. -/
def normalizeAnswer (s : Str) : Str :=
  jsTrim (collapseWs
    (((nfkd (s.map jsToLower)).filter (fun c => !isCombining c)).map replaceNonAlnum))

example : normalizeAnswer [67, 97, 102, 0xe9, 33] = [99, 97, 102, 101] := by decide

example : normalizeAnswer [99, 97, 102, 101] = [99, 97, 102, 101] := by decide

/-! ### Idempotence of the normalizer

After one pass every character is a lower-case letter, a digit or a
single space, with no two adjacent spaces and no space at either end;
every stage of the pipeline is the identity on such strings. -/


/-- Characters of the normalizer's canonical output alphabet. -/
def isCanonChar (n : Nat) : Bool := isLowerAlnum n || n == 32

/-- First character of a string is not whitespace (vacuously true of the
empty string). -/
def headOk : Str → Bool
  | [] => true
  | c :: _ => !isJsWs c

/-- Last character of a string is not whitespace. -/
def lastOk : Str → Bool
  | [] => true
  | [c] => !isJsWs c
  | _ :: b :: t => lastOk (b :: t)

/-- No two adjacent whitespace characters. -/
def noWW : Str → Bool
  | [] => true
  | [_] => true
  | a :: b :: t => !(isJsWs a && isJsWs b) && noWW (b :: t)

/-- The first (character-level) stages of the normalizer pipeline. -/
def stageA (s : Str) : Str :=
  ((nfkd (s.map jsToLower)).filter (fun c => !isCombining c)).map replaceNonAlnum

/-! ### SHA-256 and the deterministic selector

`deterministicPick` in `src/triviaRewards/helpers.ts` hashes the UTF-8
bytes of the seed with SHA-256 (via `crypto.createHash`), reads the hex
digest as a big unsigned integer and reduces it modulo `count`.  The
hash is implemented here from FIPS 180-4 over `Nat`, with explicit
reduction modulo 2^32. -/


/-- UTF-8 encoding of one Unicode scalar value. -/
def utf8Char (n : Nat) : List Nat :=
  if n < 0x80 then [n]
  else if n < 0x800 then [0xc0 + n / 64, 0x80 + n % 64]
  else if n < 0x10000 then
    [0xe0 + n / 4096, 0x80 + (n / 64) % 64, 0x80 + n % 64]
  else
    [0xf0 + n / 262144, 0x80 + (n / 4096) % 64, 0x80 + (n / 64) % 64,
     0x80 + n % 64]

/-- UTF-8 encoding of a string (assumes scalar values, as produced by a
well-formed JavaScript string). -/
def utf8Encode (s : Str) : List Nat := (s.map utf8Char).flatten

/-- Right rotation of a 32-bit word. -/
def rotr32 (x n : Nat) : Nat :=
  ((x >>> n) ||| (x <<< (32 - n))) % 4294967296

def shaCh (x y z : Nat) : Nat := (x &&& y) ^^^ ((x ^^^ 0xffffffff) &&& z)

def shaMaj (x y z : Nat) : Nat := (x &&& y) ^^^ (x &&& z) ^^^ (y &&& z)

def bigSigma0 (x : Nat) : Nat := rotr32 x 2 ^^^ rotr32 x 13 ^^^ rotr32 x 22

def bigSigma1 (x : Nat) : Nat := rotr32 x 6 ^^^ rotr32 x 11 ^^^ rotr32 x 25

def smallSigma0 (x : Nat) : Nat := rotr32 x 7 ^^^ rotr32 x 18 ^^^ (x >>> 3)

def smallSigma1 (x : Nat) : Nat := rotr32 x 17 ^^^ rotr32 x 19 ^^^ (x >>> 10)

/-- The SHA-256 round constants (FIPS 180-4, in decimal). -/
def shaK : List Nat :=
  [1116352408, 1899447441, 3049323471, 3921009573, 961987163, 1508970993,
   2453635748, 2870763221, 3624381080, 310598401, 607225278, 1426881987,
   1925078388, 2162078206, 2614888103, 3248222580, 3835390401, 4022224774,
   264347078, 604807628, 770255983, 1249150122, 1555081692, 1996064986,
   2554220882, 2821834349, 2952996808, 3210313671, 3336571891, 3584528711,
   113926993, 338241895, 666307205, 773529912, 1294757372, 1396182291,
   1695183700, 1986661051, 2177026350, 2456956037, 2730485921, 2820302411,
   3259730800, 3345764771, 3516065817, 3600352804, 4094571909, 275423344,
   430227734, 506948616, 659060556, 883997877, 958139571, 1322822218,
   1537002063, 1747873779, 1955562222, 2024104815, 2227730452, 2361852424,
   2428436474, 2756734187, 3204031479, 3329325298]

/-- The SHA-256 initial hash value (FIPS 180-4, in decimal). -/
def shaH0 : List Nat :=
  [1779033703, 3144134277, 1013904242, 2773480762, 1359893119, 2600822924,
   528734635, 1541459225]

/-- Big-endian byte serialization of a value into `n` bytes. -/
def bytesBE (n v : Nat) : List Nat :=
  (List.range n).map (fun i => (v >>> (8 * (n - 1 - i))) % 256)

/-- SHA-256 message padding: append 0x80, zero bytes, and the bit length
as an 8-byte big-endian integer, up to a multiple of 64 bytes. -/
def padMsg (m : List Nat) : List Nat :=
  let L := m.length
  let k := (64 - (L + 9) % 64) % 64
  m ++ 0x80 :: (List.replicate k 0 ++ bytesBE 8 (8 * L))

/-- Split a byte list into chunks of `sz` bytes; the fuel argument is an
upper bound on the number of chunks, making the recursion structural so
that the definition evaluates inside the kernel. -/
def chunksFuel (sz : Nat) : Nat → List Nat → List (List Nat)
  | 0, _ => []
  | _, [] => []
  | fuel + 1, l => l.take sz :: chunksFuel sz fuel (l.drop sz)

def chunksOf (sz : Nat) (l : List Nat) : List (List Nat) :=
  chunksFuel sz l.length l

/-- Assemble four big-endian bytes into a 32-bit word. -/
def word4 : List Nat → Nat
  | [a, b, c, d] => ((a * 256 + b) * 256 + c) * 256 + d
  | _ => 0

/-- The sixteen 32-bit words of one 64-byte block. -/
def blockWords (block : List Nat) : List Nat := (chunksOf 4 block).map word4

/-- Extend the message schedule by `k` further words. -/
def extendW : Nat → List Nat → List Nat
  | 0, w => w
  | k + 1, w =>
    let t := (smallSigma1 (w.getD (w.length - 2) 0) + w.getD (w.length - 7) 0 +
              smallSigma0 (w.getD (w.length - 15) 0) + w.getD (w.length - 16) 0)
             % 4294967296
    extendW k (w ++ [t])

/-- One SHA-256 compression round acting on the eight working variables. -/
def compressRound (st : List Nat) (kw : Nat × Nat) : List Nat :=
  match st with
  | [a, b, c, d, e, f, g, h] =>
    let t1 := (h + bigSigma1 e + shaCh e f g + kw.1 + kw.2) % 4294967296
    let t2 := (bigSigma0 a + shaMaj a b c) % 4294967296
    [(t1 + t2) % 4294967296, a, b, c, (d + t1) % 4294967296, e, f, g]
  | _ => st

/-- Process one 64-byte block into the running hash value. -/
def processBlock (h : List Nat) (block : List Nat) : List Nat :=
  let w := extendW 48 (blockWords block)
  let st := (shaK.zip w).foldl compressRound h
  (h.zip st).map (fun p => (p.1 + p.2) % 4294967296)

/-- SHA-256 of a byte list, as the list of eight 32-bit hash words. -/
def sha256Words (m : List Nat) : List Nat :=
  (chunksOf 64 (padMsg m)).foldl processBlock shaH0

/-- SHA-256 digest as a list of 32 bytes. -/
def sha256Bytes (m : List Nat) : List Nat :=
  ((sha256Words m).map (bytesBE 4)).flatten

/-- The hex digest read as a big unsigned integer, as done by the source
with a BigInt conversion of the hex string. -/
def sha256Nat (m : List Nat) : Nat :=
  (sha256Bytes m).foldl (fun acc b => acc * 256 + b) 0

/-- Embedding of `deterministicPick` from `src/triviaRewards/helpers.ts`.
The count is modelled as an integer; the source's final conversion from
BigInt back to a JavaScript number is exact for the counts that occur
(array lengths, far below 2^53). -/
def deterministicPick (seed : Str) (count : Int) : Int :=
  if count ≤ 0 then -1
  else (sha256Nat (utf8Encode seed) : Int) % count

/-! ### Day keys

`toDayKey` in `src/triviaRewards/helpers.ts` formats the UTC calendar
date of an epoch-millisecond timestamp as YYYY-MM-DD, padding month and
day to two digits.  The UTC calendar fields are computed here with the
standard civil-from-days algorithm, which is the proleptic Gregorian
calendar used by JavaScript dates. -/


/-- Decimal digits of a natural number, most significant first; the fuel
argument makes the recursion structural. -/
def natDigitsFuel : Nat → Nat → List Nat
  | 0, _ => []
  | fuel + 1, n =>
    if n < 10 then [48 + n] else natDigitsFuel fuel (n / 10) ++ [48 + n % 10]

def natDigits (n : Nat) : Str := natDigitsFuel (n + 1) n

/-- Decimal rendering of an integer, as JavaScript number-to-string for
integral values. -/
def intToStr (i : Int) : Str :=
  if i < 0 then 45 :: natDigits i.natAbs else natDigits i.toNat

/-- Two-digit zero padding, as the source's use of padStart. -/
def pad2 (n : Nat) : Str := if n < 10 then [48, 48 + n] else natDigits n

/-- Embedding of `toDayKey` from `src/triviaRewards/helpers.ts`: the UTC
calendar day of a timestamp in epoch milliseconds, as YYYY-MM-DD. -/
def toDayKey (ms : Int) : Str :=
  let days : Int := Int.fdiv ms 86400000
  let z : Int := days + 719468
  let era : Int := Int.fdiv z 146097
  let doe : Nat := (z - era * 146097).toNat
  let yoe : Nat := (doe - doe / 1460 + doe / 36524 - doe / 146096) / 365
  let y0 : Int := (yoe : Int) + era * 400
  let doy : Nat := doe - (365 * yoe + yoe / 4 - yoe / 100)
  let mp : Nat := (5 * doy + 2) / 153
  let d : Nat := doy - (153 * mp + 2) / 5 + 1
  let m : Nat := if mp < 10 then mp + 3 else mp - 9
  let y : Int := if m ≤ 2 then y0 + 1 else y0
  intToStr y ++ [45] ++ pad2 m ++ [45] ++ pad2 d

example : toDayKey 0 = [49, 57, 55, 48, 45, 48, 49, 45, 48, 49] := by decide

example : toDayKey 1728000000000 = [50, 48, 50, 52, 45, 49, 48, 45, 48, 52] := by
  decide

/-! ### Reply parsing and collection

`parseTweetForReply` in `src/triviaRewards/helpers.ts` extracts reply
data from a dynamically shaped tweet object by trying a prioritized list
of field names for each concept; `collectReplies` in
`src/triviaRewards/routes.ts` filters the parsed replies by thread and
time window and scores them against the round's normalized answers. -/


/-- The dynamically shaped raw tweet, restricted to the fields the
source inspects.  A `none` models an absent field or one whose value is
not of the inspected type.  `legacyCreatedAt` models the result of
parsing the legacy created-at string with `Date.parse`: `none` when the
field is absent or unparseable, otherwise the parsed epoch
milliseconds. -/
structure RawTweet where
  idField : Option Str := none
  restId : Option Str := none
  tweetIdField : Option Str := none
  legacyIdStr : Option Str := none
  textField : Option Str := none
  fullText : Option Str := none
  legacyFullText : Option Str := none
  legacyText : Option Str := none
  userIdCamel : Option Str := none
  userIdSnake : Option Str := none
  coreRestId : Option Str := none
  userIdStr : Option Str := none
  usernameField : Option Str := none
  coreScreenName : Option Str := none
  userScreenName : Option Str := none
  replyToCamel : Option Str := none
  replyToSnake : Option Str := none
  legacyReplyTo : Option Str := none
  timestampSec : Option Int := none
  createdAtNum : Option Int := none
  legacyCreatedAt : Option Int := none
deriving DecidableEq

/-- A string is truthy after trimming: it contains a non-whitespace
character. -/
def strTruthyTrim (s : Str) : Bool := s.any (fun c => !isJsWs c)

/-- Embedding of the source's `pickFirstString` helper: the first
candidate that is a string with non-blank content, or the empty string. -/
def pickFirstString : List (Option Str) → Str
  | [] => []
  | v :: rest =>
    match v with
    | some s => if strTruthyTrim s then s else pickFirstString rest
    | none => pickFirstString rest

/-- The structured reply extracted from a raw tweet. -/
structure ParsedTweet where
  id : Str
  text : Str
  twitterUserId : Str
  twitterUsername : Option Str
  inReplyToStatusId : Option Str
  createdAtMs : Option Int
deriving DecidableEq

/-- The id extraction chain of `parseTweetForReply`. -/
def idOf (raw : RawTweet) : Str :=
  pickFirstString [raw.idField, raw.restId, raw.tweetIdField, raw.legacyIdStr]

/-- The text extraction chain of `parseTweetForReply`. -/
def textOf (raw : RawTweet) : Str :=
  pickFirstString [raw.textField, raw.fullText, raw.legacyFullText, raw.legacyText]

/-- The author user-id extraction chain of `parseTweetForReply`. -/
def authorOf (raw : RawTweet) : Str :=
  pickFirstString [raw.userIdCamel, raw.userIdSnake, raw.coreRestId, raw.userIdStr]

/-- The username extraction chain of `parseTweetForReply`. -/
def usernameOf (raw : RawTweet) : Str :=
  pickFirstString [raw.usernameField, raw.coreScreenName, raw.userScreenName]

/-- The in-reply-to extraction chain of `parseTweetForReply`. -/
def replyToOf (raw : RawTweet) : Str :=
  pickFirstString [raw.replyToCamel, raw.replyToSnake, raw.legacyReplyTo]

/-- The created-at extraction chain of `parseTweetForReply`: a numeric
`timestamp` field in seconds, else a numeric `created_at` in
milliseconds, else the parsed legacy created-at string. -/
def createdAtOf (raw : RawTweet) : Option Int :=
  match raw.timestampSec with
  | some t => some (t * 1000)
  | none =>
    match raw.createdAtNum with
    | some c => some c
    | none => raw.legacyCreatedAt

/-- Embedding of `parseTweetForReply` from
`src/triviaRewards/helpers.ts`. -/
def parseTweetForReply (raw : RawTweet) : Option ParsedTweet :=
  let id := idOf raw
  if id = [] then none else
  let uid := authorOf raw
  if uid = [] then none else
  let uname := usernameOf raw
  let inr := replyToOf raw
  some { id := id, text := textOf raw, twitterUserId := uid,
         twitterUsername := if uname = [] then none else some uname,
         inReplyToStatusId := if inr = [] then none else some inr,
         createdAtMs := createdAtOf raw }

/-- A reply row as inserted into the store. -/
structure ReplyIns where
  trivia_id : Str
  tweet_id : Str
  twitter_user_id : Str
  twitter_username : Option Str
  reply_text : Str
  normalized_text : Str
  is_correct : Bool
  created_at : Int
deriving DecidableEq

/-- The body of the `collectReplies` loop in
`src/triviaRewards/routes.ts` for a single raw tweet: parse it, drop it
when it is not parseable, when it replies to a different status than the
contest tweet, or when its creation time is truthy and outside the
window; otherwise normalize and score it.  The `now` argument models the
current time used as fallback creation time. -/
def tweetToReply (triviaId postId : Str) (answers : List Str)
    (windowStart windowEnd now : Int) (raw : RawTweet) : Option ReplyIns :=
  match parseTweetForReply raw with
  | none => none
  | some p =>
    let mismatch : Bool :=
      match p.inReplyToStatusId with
      | some r => decide (r ≠ postId)
      | none => false
    if mismatch then none else
    let outside : Bool :=
      match p.createdAtMs with
      | some t => decide (t ≠ 0) && (decide (t < windowStart) || decide (windowEnd < t))
      | none => false
    if outside then none else
    let normalized := normalizeAnswer p.text
    some { trivia_id := triviaId, tweet_id := p.id,
           twitter_user_id := p.twitterUserId,
           twitter_username := p.twitterUsername,
           reply_text := p.text, normalized_text := normalized,
           is_correct := answers.contains normalized,
           created_at := p.createdAtMs.getD now }

/-- Embedding of `collectReplies` from `src/triviaRewards/routes.ts`,
applied to the raw tweets returned by the external reply source. -/
def collectReplies (triviaId postId : Str) (answers : List Str)
    (windowStart windowEnd now : Int) (raws : List RawTweet) : List ReplyIns :=
  raws.filterMap (tweetToReply triviaId postId answers windowStart windowEnd now)

/-- The drop condition exactly as the claim states it (a refinement
definition following the spec's words, for comparison with the code):
the author user id cannot be extracted, or the in-reply-to id is present
and differs from the contest post id, or the creation timestamp is known
and falls outside the window. -/
def specDropsReply (postId : Str) (windowStart windowEnd : Int)
    (raw : RawTweet) : Bool :=
  decide (authorOf raw = []) ||
  (match replyToOf raw with
   | [] => false
   | r => decide (r ≠ postId)) ||
  (match createdAtOf raw with
   | some t => decide (t < windowStart) || decide (windowEnd < t)
   | none => false)

/-- The drop condition the code actually implements: additionally drops
replies whose tweet id cannot be extracted, and treats a creation
timestamp equal to zero as unknown (JavaScript truthiness). -/
def codeDropsReply (postId : Str) (windowStart windowEnd : Int)
    (raw : RawTweet) : Bool :=
  decide (idOf raw = []) ||
  decide (authorOf raw = []) ||
  (match replyToOf raw with
   | [] => false
   | r => decide (r ≠ postId)) ||
  (match createdAtOf raw with
   | some t => decide (t ≠ 0) && (decide (t < windowStart) || decide (windowEnd < t))
   | none => false)

/-- A concrete raw tweet with id "1", author "u1" and text "hi", kept by
the collection filter. -/
def rawKeptC4 : RawTweet :=
  { idField := some [49], userIdCamel := some [117, 49],
    textField := some [104, 105] }

/-- The reply row the collection filter produces for `rawKeptC4`. -/
def repKeptC4 : ReplyIns :=
  ⟨[114], [49], [117, 49], none, [104, 105], [104, 105], true, 50⟩

/-! ### The round store

The embedded datastore of `src/db/triviaRewards.ts`: the four tables are
modelled as lists of rows; SQL point lookups are first-match searches.
Nullable columns are `Option`s; JavaScript truthiness tests on nullable
numbers hold exactly for present, nonzero values. -/


/-- One row of the trivia_rewards table. -/
structure TriviaRound where
  trivia_id : Str
  tweet_id : Str
  correct_answers : List Str
  window_minutes : Int
  reward_rmz : Int
  created_at : Int
  closes_at : Int
  statusClosed : Bool
  block_height : Option Int := none
  seed : Option Str := none
  winner_twitter_user_id : Option Str := none
  winner_tweet_id : Option Str := none
  claim_code : Option Str := none
  claim_expires_at : Option Int := none
  used_at : Option Int := none
  used_address : Option Str := none
  txid : Option Str := none
  invalid_attempts : Int := 0
  lock_expires_at : Option Int := none
deriving DecidableEq

/-- One row of the trivia_claim_attempts table. -/
structure ClaimAttempt where
  claim_code : Str
  invalid_attempts : Int
  lock_expires_at : Option Int
  updated_at : Int
deriving DecidableEq

/-- One row of the trivia_payouts table. -/
structure Payout where
  trivia_id : Str
  twitter_user_id : Str
  address : Str
  rmz_amount : Int
  txid : Str
  created_at : Int
  day_key : Str
deriving DecidableEq

/-- The durable state owned by the round store. -/
structure DbState where
  rounds : List TriviaRound
  attempts : List ClaimAttempt
  payouts : List Payout
  dailySpend : List (Str × Int)
deriving DecidableEq

/-- Point lookup by round id (`getTrivia`). -/
def getTrivia (db : DbState) (tid : Str) : Option TriviaRound :=
  db.rounds.find? (fun r => decide (r.trivia_id = tid))

/-- Point lookup by claim code (`getClaimByCode`); a round with a null
claim code never matches, as in SQL. -/
def getClaimByCode (db : DbState) (code : Str) : Option TriviaRound :=
  db.rounds.find? (fun r => decide (r.claim_code = some code))

/-- Point lookup in the claim-attempt table (`getClaimAttemptByCode`). -/
def getClaimAttemptByCode (db : DbState) (code : Str) : Option ClaimAttempt :=
  db.attempts.find? (fun a => decide (a.claim_code = code))

/-- Embedding of `markClaimUsed`: conditionally set the used fields and
clear the lockout counters, only where `used_at` is currently null, and
report whether a row was affected. -/
def markClaimUsed (db : DbState) (tid : Str) (usedAt : Int) (addr txid : Str) :
    Bool × DbState :=
  (db.rounds.any (fun r => decide (r.trivia_id = tid ∧ r.used_at = none)),
   { db with rounds := db.rounds.map (fun r =>
       if r.trivia_id = tid ∧ r.used_at = none then
         { r with used_at := some usedAt, used_address := some addr,
                  txid := some txid, invalid_attempts := 0,
                  lock_expires_at := none }
       else r) })

/-- Embedding of `recordPayout`: append-only insert. -/
def recordPayout (db : DbState) (p : Payout) : DbState :=
  { db with payouts := db.payouts ++ [p] }

/-- Embedding of `incrementDailySpend`: upsert adding the amount to the
day's running total. -/
def incrementDailySpend (db : DbState) (day : Str) (amt : Int) : DbState :=
  if db.dailySpend.any (fun e => decide (e.1 = day)) then
    { db with dailySpend := db.dailySpend.map (fun e =>
        if e.1 = day then (e.1, e.2 + amt) else e) }
  else { db with dailySpend := db.dailySpend ++ [(day, amt)] }

/-- Embedding of `getDailySpend`: the day's total, zero when absent. -/
def getDailySpend (db : DbState) (day : Str) : Int :=
  match db.dailySpend.find? (fun e => decide (e.1 = day)) with
  | some e => e.2
  | none => 0

/-- Embedding of `countWinsForUser`. -/
def countWinsForUser (db : DbState) (day : Str) (user : Str) : Int :=
  ((db.payouts.filter
      (fun p => decide (p.day_key = day ∧ p.twitter_user_id = user))).length : Int)

/-- Embedding of `sumAddressSpend`. -/
def sumAddressSpend (db : DbState) (day : Str) (addr : Str) : Int :=
  ((db.payouts.filter
      (fun p => decide (p.day_key = day ∧ p.address = addr))).map
    (fun p => p.rmz_amount)).sum

/-- Embedding of `recordClaimAndPayout`: inside one transaction, run the
conditional `markClaimUsed`; if it affected no row stop with false,
otherwise insert the payout row and bump the day's spend, returning
true. -/
def recordClaimAndPayout (db : DbState) (tid : Str) (usedAt : Int)
    (addr txid user : Str) (amt : Int) (day : Str) : Bool × DbState :=
  let m := markClaimUsed db tid usedAt addr txid
  if m.1 then
    (true, incrementDailySpend
      (recordPayout m.2 ⟨tid, user, addr, amt, txid, usedAt, day⟩) day amt)
  else (false, m.2)

/-- Embedding of `clearClaimLock`: reset the round's lockout counter. -/
def clearClaimLock (db : DbState) (tid : Str) : DbState :=
  { db with rounds := db.rounds.map (fun r =>
      if r.trivia_id = tid then
        { r with invalid_attempts := 0, lock_expires_at := none }
      else r) }

/-- Embedding of `clearClaimAttemptLock`; the update timestamp comes
from the caller's clock. -/
def clearClaimAttemptLock (db : DbState) (code : Str) (now : Int) : DbState :=
  { db with attempts := db.attempts.map (fun a =>
      if a.claim_code = code then
        { a with invalid_attempts := 0, lock_expires_at := none,
                 updated_at := now }
      else a) }

/-- The lazy-expiry step shared by both attempt counters: a stored lock
that is truthy (present and nonzero) and already passed resets the
state. -/
def lazyExpireStep (count : Int) (lock : Option Int) (now : Int) :
    Int × Option Int :=
  match lock with
  | some l => if l ≠ 0 ∧ now ≥ l then (0, none) else (count, lock)
  | none => (count, lock)

/-- Embedding of `recordInvalidAttempt` on the round-scoped counter:
lazy-expire, increment, and arm the lock when the count reaches the
maximum; returns the new counter pair and the updated state. -/
def recordInvalidAttempt (db : DbState) (tid : Str) (now : Int)
    (maxAttempts : Int) (lockMs : Int) : (Int × Option Int) × DbState :=
  let row := getTrivia db tid
  let count0 := match row with | some r => r.invalid_attempts | none => 0
  let lock0 := match row with | some r => r.lock_expires_at | none => none
  let s := lazyExpireStep count0 lock0 now
  let count1 := s.1 + 1
  let lock1 := if count1 ≥ maxAttempts then some (now + lockMs) else s.2
  ((count1, lock1),
   { db with rounds := db.rounds.map (fun r =>
       if r.trivia_id = tid then
         { r with invalid_attempts := count1, lock_expires_at := lock1 }
       else r) })

/-- Embedding of `recordInvalidClaimCodeAttempt` on the code-scoped
counter, with its upsert into the attempt table. -/
def recordInvalidClaimCodeAttempt (db : DbState) (code : Str) (now : Int)
    (maxAttempts : Int) (lockMs : Int) : (Int × Option Int) × DbState :=
  let row := getClaimAttemptByCode db code
  let count0 := match row with | some a => a.invalid_attempts | none => 0
  let lock0 := match row with | some a => a.lock_expires_at | none => none
  let s := lazyExpireStep count0 lock0 now
  let count1 := s.1 + 1
  let lock1 := if count1 ≥ maxAttempts then some (now + lockMs) else s.2
  ((count1, lock1),
   { db with attempts :=
      match row with
      | some _ => db.attempts.map (fun a =>
          if a.claim_code = code then
            { a with invalid_attempts := count1, lock_expires_at := lock1,
                     updated_at := now }
          else a)
      | none => db.attempts ++ [⟨code, count1, lock1, now⟩] })

/-- The day total read back from an association list. -/
def spendLookup (l : List (Str × Int)) (day : Str) : Int :=
  match l.find? (fun e => decide (e.1 = day)) with
  | some e => e.2
  | none => 0

/-- The payout-ledger invariant: every recorded payout belongs to a
round already marked used, and no two payouts share a round id (the
claim's "at most one payout ever exists per roundId"). -/
def PayoutInv (db : DbState) : Prop :=
  (∀ p ∈ db.payouts, ∀ r ∈ db.rounds,
     r.trivia_id = p.trivia_id → r.used_at ≠ none) ∧
  db.payouts.Pairwise (fun p q => p.trivia_id ≠ q.trivia_id)

/-- A concrete open, unused round for the settlement witnesses. -/
def roundW : TriviaRound :=
  { trivia_id := [116], tweet_id := [112], correct_answers := [[104, 105]],
    window_minutes := 10, reward_rmz := 3, created_at := 0,
    closes_at := 600000, statusClosed := true,
    winner_twitter_user_id := some [117, 49], claim_code := some [99],
    claim_expires_at := some 900000 }

/-- A concrete store with one closed, unclaimed round. -/
def dbW : DbState := ⟨[roundW], [], [], []⟩

/-- A round whose stored lock expiry is the (expired) timestamp zero. -/
def roundZ : TriviaRound :=
  { trivia_id := [116], tweet_id := [112], correct_answers := [],
    window_minutes := 10, reward_rmz := 3, created_at := 0, closes_at := 1,
    statusClosed := true, invalid_attempts := 1, lock_expires_at := some 0 }

/-- A store holding `roundZ`. -/
def dbZ : DbState := ⟨[roundZ], [], [], []⟩

/-! ### Administrative authentication

`requireAdmin` in `src/triviaRewards/routes.ts` extracts a bearer token
from the authorization header with a case-insensitive anchored regular
expression and compares it to the configured admin secret; a missing or
empty secret, a missing header and a mismatched token all produce the
same 401 response. -/


/-- ASCII lower-casing, the case folding used by a regex i-flag match on
ASCII letters. -/
def lowerAsciiChar (n : Nat) : Nat := if 65 ≤ n ∧ n ≤ 90 then n + 32 else n

/-- The word "bearer". -/
def strBearer : Str := [98, 101, 97, 114, 101, 114]

/-- The body "unauthorized" of the failure response. -/
def unauthorizedStr : Str :=
  [117, 110, 97, 117, 116, 104, 111, 114, 105, 122, 101, 100]

/-- Embedding of `extractBearerToken`'s anchored case-insensitive match:
the header must read "Bearer", then at least one whitespace character,
then a nonempty token free of line terminators (a regex dot matches no
line terminator); the greedy whitespace run backtracks one character
when the remainder is all whitespace.  Returns the empty string when the
pattern does not match. -/
def extractBearer (header : Str) : Str :=
  if (header.take 6).map lowerAsciiChar = strBearer then
    let r := header.drop 6
    let k := (r.takeWhile isJsWs).length
    if k = 0 then []
    else if k < r.length then
      let t := r.drop k
      if t.any isLineTerm then [] else t
    else
      match r.getLast? with
      | some c => if 2 ≤ r.length ∧ isLineTerm c = false then [c] else []
      | none => []
  else []

/-- The effective authorization header: the lower-case header name, else
the capitalized one, else empty (JavaScript or-chains skip empty
strings). -/
def headerValue (authL authU : Option Str) : Str :=
  match authL with
  | some s =>
    if s = [] then (match authU with | some u => u | none => []) else s
  | none => match authU with | some u => u | none => []

/-- Embedding of `requireAdmin`: fail with the 401 unauthorized response
when the configured secret is missing or empty or when the extracted
bearer token differs from it; succeed otherwise. -/
def requireAdmin (expected : Option Str) (authL authU : Option Str) :
    Bool × Option (Nat × Str) :=
  let provided := extractBearer (headerValue authL authU)
  match expected with
  | none => (false, some (401, unauthorizedStr))
  | some s =>
    if s = [] then (false, some (401, unauthorizedStr))
    else if provided = s then (true, none)
    else (false, some (401, unauthorizedStr))

/-! ### Closing a round and selecting the winner

The close route (`src/triviaRewards/routes.ts`) deduplicates the
correct repliers keeping each user's earliest reply, sorts the user ids
as JavaScript array sort does (lexicographically by code unit), builds
the selection seed, and picks the winner with the deterministic
selector.  The claim code is produced by a cryptographically random
generator and is modelled as an input. -/


/-- Lexicographic comparison of strings by code unit, the default
JavaScript array sort order. -/
def lexLe : Str → Str → Bool
  | [], _ => true
  | _ :: _, [] => false
  | a :: as, b :: bs => if a < b then true else if b < a then false else lexLe as bs

def insertLex (x : Str) : List Str → List Str
  | [] => [x]
  | y :: t => if lexLe x y then x :: y :: t else y :: insertLex x t

/-- Insertion sort by `lexLe`; on duplicate-free inputs it agrees with
any sort by this total order. -/
def sortLex (l : List Str) : List Str := l.foldr insertLex []

/-- First-occurrence deduplication of correct replies by author user id,
as the insertion into a map keyed by user id keeps each user's earliest
reply (the input is ordered by creation time). -/
def dedupByUser (seen : List Str) : List ReplyIns → List ReplyIns
  | [] => []
  | r :: t =>
    if seen.any (fun s => decide (s = r.twitter_user_id)) then
      dedupByUser seen t
    else r :: dedupByUser (r.twitter_user_id :: seen) t

/-- Array join with a comma separator. -/
def joinComma : List Str → Str
  | [] => []
  | [s] => s
  | s :: t => s ++ [44] ++ joinComma t

/-- The deduplicated correct repliers of a round. -/
def closeUniq (correct : List ReplyIns) : List ReplyIns := dedupByUser [] correct

/-- The sorted eligible author user ids. -/
def closeIds (correct : List ReplyIns) : List Str :=
  sortLex ((closeUniq correct).map (fun r => r.twitter_user_id))

/-- The selection seed: the server salt, the round id, the post id and
the comma-joined sorted participant ids, colon-separated. -/
def closeSeed (salt : Str) (trivia : TriviaRound) (correct : List ReplyIns) :
    Str :=
  salt ++ [58] ++ trivia.trivia_id ++ [58] ++ trivia.tweet_id ++ [58] ++
    joinComma (closeIds correct)

/-- The fields written by `closeTrivia`. -/
structure CloseParams where
  blockHeight : Int
  seed : Str
  winnerUserId : Option Str
  winnerTweetId : Option Str
  claimCode : Option Str
  claimExpiresAt : Option Int
deriving DecidableEq

/-- The close route's response, reduced to its distinguishing fields. -/
inductive CloseResp where
  | noWinnersResp (triviaId seed : Str)
  | winnerResp (triviaId seed winnerUser winnerTweet claimCode : Str)
      (claimExpiresAt : Int)
  | pickFailed
deriving DecidableEq

/-- Embedding of `closeTrivia`: one update setting the closed status and
the result fields on the round. -/
def closeTrivia (db : DbState) (tid : Str) (p : CloseParams) : DbState :=
  { db with rounds := db.rounds.map (fun r =>
      if r.trivia_id = tid then
        { r with statusClosed := true, block_height := some p.blockHeight,
                 seed := some p.seed, winner_twitter_user_id := p.winnerUserId,
                 winner_tweet_id := p.winnerTweetId, claim_code := p.claimCode,
                 claim_expires_at := p.claimExpiresAt }
      else r) }

/-- The winner-selection core of the close route, from the deduplicated
correct replies to the close parameters and response; `rndCode` models
the sixteen random bytes rendered in hex, and the claim expiry is one
hour from now. -/
def closeCore (salt : Str) (trivia : TriviaRound) (correct : List ReplyIns)
    (blockHeight : Int) (rndCode : Str) (now : Int) :
    Option CloseParams × CloseResp :=
  if closeIds correct = [] then
    (some ⟨blockHeight, closeSeed salt trivia correct, none, none, none, none⟩,
     CloseResp.noWinnersResp trivia.trivia_id (closeSeed salt trivia correct))
  else
    match (closeUniq correct).find? (fun r => decide (r.twitter_user_id =
        (closeIds correct).getD
          (deterministicPick (closeSeed salt trivia correct)
            ((closeIds correct).length : Int)).toNat [])) with
    | none => (none, CloseResp.pickFailed)
    | some w =>
      (some ⟨blockHeight, closeSeed salt trivia correct, some w.twitter_user_id,
             some w.tweet_id, some rndCode, some (now + 3600000)⟩,
       CloseResp.winnerResp trivia.trivia_id (closeSeed salt trivia correct)
         w.twitter_user_id w.tweet_id rndCode (now + 3600000))

/-- A correct reply by user "u1" for the close witnesses. -/
def replyU1 : ReplyIns := ⟨[116], [49], [117, 49], none, [104, 105], [104, 105], true, 1⟩

/-! ### The claim endpoint

The claim route (`src/triviaRewards/routes.ts`) chains an in-memory
rate check, lockout checks with lazy expiry, the idempotent already-paid
short cut, address validation, expiry and token-gate checks, the three
daily caps, the external payment, and the atomic settlement.  External
calls (token ownership, payment) are modelled as environment values
resolved once, as each is awaited once per request; the several
`Date.now()` reads during one request are modelled by the single `now`. -/


/-- One in-memory rate-limit bucket. -/
structure Bucket where
  key : Str
  count : Int
  resetAt : Int
deriving DecidableEq

/-- Embedding of `allowRateLimit`: a fresh or rolled-over bucket is
reset to one and allowed; a full bucket within the window denies;
otherwise the count increments. -/
def allowRateLimit (mem : List Bucket) (key : Str) (limit : Int) (now : Int) :
    Bool × List Bucket :=
  match mem.find? (fun b => decide (b.key = key)) with
  | none => (true, mem ++ [⟨key, 1, now + 60000⟩])
  | some b =>
    if now > b.resetAt then
      (true, mem.map (fun e => if e.key = key then ⟨key, 1, now + 60000⟩ else e))
    else if b.count ≥ limit then (false, mem)
    else (true, mem.map (fun e =>
      if e.key = key then ⟨e.key, e.count + 1, e.resetAt⟩ else e))

/-- The string "unknown". -/
def unknownStr : Str := [117, 110, 107, 110, 111, 119, 110]

/-- A claim request: body fields and the connection data the source
reads. -/
structure ClaimReq where
  claimCode : Option Str
  address : Option Str
  forwardedFor : Option Str
  ip : Option Str
deriving DecidableEq

def takeUntilComma (s : Str) : Str := s.takeWhile (fun c => decide (c ≠ 44))

/-- Embedding of `getRequestIp`: the first entry of a non-blank
x-forwarded-for header, trimmed; else the connection ip; else
"unknown". -/
def getRequestIp (req : ClaimReq) : Str :=
  match req.forwardedFor with
  | some f =>
    if strTruthyTrim f then jsTrim (takeUntilComma f)
    else match req.ip with
         | some i => if i = [] then unknownStr else i
         | none => unknownStr
  | none =>
    match req.ip with
    | some i => if i = [] then unknownStr else i
    | none => unknownStr

/-- The rate-limit key "ip:" followed by the request ip. -/
def ipKeyOf (req : ClaimReq) : Str := [105, 112, 58] ++ getRequestIp req

/-- The rate-limit key "user:" followed by the winner's user id. -/
def userKeyOf (user : Str) : Str := [117, 115, 101, 114, 58] ++ user

/-- The prefix "ecash:". -/
def ecashPre : Str := [101, 99, 97, 115, 104, 58]

/-- Embedding of `isValidEcashAddress`. -/
def isValidEcashAddress (addr : Str) : Bool :=
  decide (addr.take 6 = ecashPre) && decide (12 < addr.length)

/-- A nullable millisecond timestamp is truthy and still in the future. -/
def lockActiveB (lock : Option Int) (now : Int) : Bool :=
  match lock with
  | some l => decide (l ≠ 0) && decide (now < l)
  | none => false

/-- A nullable millisecond timestamp is truthy and already reached. -/
def lockPassedB (lock : Option Int) (now : Int) : Bool :=
  match lock with
  | some l => decide (l ≠ 0) && decide (now ≥ l)
  | none => false

/-- A nullable expiry is truthy and strictly before now. -/
def expiredB (e : Option Int) (now : Int) : Bool :=
  match e with
  | some t => decide (t ≠ 0) && decide (now > t)
  | none => false

/-- A nullable string is truthy. -/
def truthyStr (o : Option Str) : Bool :=
  match o with
  | some s => !s.isEmpty
  | none => false

/-- A nullable number is truthy. -/
def truthyInt (o : Option Int) : Bool :=
  match o with
  | some t => decide (t ≠ 0)
  | none => false

/-- Drop a falsy (absent or empty) request string. -/
def truthyFilter (o : Option Str) : Option Str :=
  match o with
  | some s => if s = [] then none else some s
  | none => none

/-- The claim route's responses, reduced to their distinguishing
fields. -/
inductive ClaimResp where
  | rateLimited
  | missingFields
  | notFound
  | alreadyPaid (triviaId : Str) (txid : Option Str)
  | invalidAddress
  | expiredResp
  | notEligible
  | gateNotConfigured
  | forbidden
  | tokenNotConfigured
  | payoutNotImplemented
  | paid (triviaId : Str) (txid : Str) (rewardRmz : Int)
deriving DecidableEq

/-- The configuration and external-collaborator results a claim request
sees. -/
structure ClaimEnv where
  claimRateLimit : Int
  gatingConfigured : Bool
  ownsTokenRes : Bool
  rmzTokenConfigured : Bool
  dailyCap : Int
  maxWinPerUser : Int
  maxRmzPerAddress : Int
  sendRes : Option Str
deriving DecidableEq

/-- The observable outcome of one claim request: the response, the
durable state, the in-memory buckets, and whether the external payment
executor was invoked. -/
structure ClaimOutcome where
  resp : ClaimResp
  db : DbState
  mem : List Bucket
  paymentInvoked : Bool
deriving DecidableEq

/-- Claim steps x and onward: cap checks, payment, settlement. -/
def claimStage7 (env : ClaimEnv) (db2 : DbState) (mem2 : List Bucket)
    (claim : TriviaRound) (addr : Str) (now : Int) : ClaimOutcome :=
  if env.dailyCap < getDailySpend db2 (toDayKey now) + claim.reward_rmz then
    ⟨ClaimResp.rateLimited, db2, mem2, false⟩
  else if countWinsForUser db2 (toDayKey now)
      (claim.winner_twitter_user_id.getD []) ≥ env.maxWinPerUser then
    ⟨ClaimResp.rateLimited, db2, mem2, false⟩
  else if env.maxRmzPerAddress <
      sumAddressSpend db2 (toDayKey now) addr + claim.reward_rmz then
    ⟨ClaimResp.rateLimited, db2, mem2, false⟩
  else if env.rmzTokenConfigured = false then
    ⟨ClaimResp.tokenNotConfigured, db2, mem2, false⟩
  else
    match env.sendRes with
    | none => ⟨ClaimResp.payoutNotImplemented, db2, mem2, true⟩
    | some tx =>
      ⟨ClaimResp.paid claim.trivia_id tx claim.reward_rmz,
       (recordClaimAndPayout db2 claim.trivia_id now addr tx
         (claim.winner_twitter_user_id.getD []) claim.reward_rmz
         (toDayKey now)).2,
       mem2, true⟩

/-- Claim steps vi through ix: already-paid short cut, address
validation, claim expiry, winner presence, and the token gate. -/
def claimStage6 (env : ClaimEnv) (db2 : DbState) (mem2 : List Bucket)
    (claim : TriviaRound) (addr : Str) (now : Int) : ClaimOutcome :=
  if truthyInt claim.used_at then
    ⟨ClaimResp.alreadyPaid claim.trivia_id claim.txid, db2, mem2, false⟩
  else if isValidEcashAddress addr = false then
    if lockActiveB (recordInvalidAttempt db2 claim.trivia_id now 3 900000).1.2
        now then
      ⟨ClaimResp.rateLimited,
       (recordInvalidAttempt db2 claim.trivia_id now 3 900000).2, mem2, false⟩
    else
      ⟨ClaimResp.invalidAddress,
       (recordInvalidAttempt db2 claim.trivia_id now 3 900000).2, mem2, false⟩
  else if expiredB claim.claim_expires_at now then
    if lockActiveB (recordInvalidAttempt db2 claim.trivia_id now 3 900000).1.2
        now then
      ⟨ClaimResp.rateLimited,
       (recordInvalidAttempt db2 claim.trivia_id now 3 900000).2, mem2, false⟩
    else
      ⟨ClaimResp.expiredResp,
       (recordInvalidAttempt db2 claim.trivia_id now 3 900000).2, mem2, false⟩
  else if truthyStr claim.winner_twitter_user_id = false then
    ⟨ClaimResp.notEligible, db2, mem2, false⟩
  else if env.gatingConfigured = false then
    ⟨ClaimResp.gateNotConfigured, db2, mem2, false⟩
  else if env.ownsTokenRes = false then
    if lockActiveB (recordInvalidAttempt db2 claim.trivia_id now 3 900000).1.2
        now then
      ⟨ClaimResp.rateLimited,
       (recordInvalidAttempt db2 claim.trivia_id now 3 900000).2, mem2, false⟩
    else
      ⟨ClaimResp.forbidden,
       (recordInvalidAttempt db2 claim.trivia_id now 3 900000).2, mem2, false⟩
  else claimStage7 env db2 mem2 claim addr now

/-- Claim step v: the per-user in-memory rate check, taken only when the
round has a truthy winner id. -/
def claimStage5 (env : ClaimEnv) (db2 : DbState) (mem1 : List Bucket)
    (claim : TriviaRound) (addr : Str) (now : Int) : ClaimOutcome :=
  if truthyStr claim.winner_twitter_user_id then
    if (allowRateLimit mem1 (userKeyOf (claim.winner_twitter_user_id.getD []))
        env.claimRateLimit now).1 = false then
      ⟨ClaimResp.rateLimited, db2,
       (allowRateLimit mem1 (userKeyOf (claim.winner_twitter_user_id.getD []))
         env.claimRateLimit now).2, false⟩
    else
      claimStage6 env db2
        (allowRateLimit mem1 (userKeyOf (claim.winner_twitter_user_id.getD []))
          env.claimRateLimit now).2 claim addr now
  else claimStage6 env db2 mem1 claim addr now

/-- Claim step iv: the round-scoped lockout with lazy expiry. -/
def claimStage4 (env : ClaimEnv) (db1 : DbState) (mem1 : List Bucket)
    (claim : TriviaRound) (addr : Str) (now : Int) : ClaimOutcome :=
  if lockActiveB claim.lock_expires_at now then
    ⟨ClaimResp.rateLimited, db1, mem1, false⟩
  else
    claimStage5 env
      (if lockPassedB claim.lock_expires_at now then
        clearClaimLock db1 claim.trivia_id
       else db1)
      mem1 claim addr now

/-- Claim step iii: the lookup by claim code, recording an invalid-code
attempt on a miss. -/
def claimStage3 (env : ClaimEnv) (db1 : DbState) (mem1 : List Bucket)
    (code addr : Str) (now : Int) : ClaimOutcome :=
  match getClaimByCode db1 code with
  | none =>
    if lockActiveB (recordInvalidClaimCodeAttempt db1 code now 3 900000).1.2
        now then
      ⟨ClaimResp.rateLimited,
       (recordInvalidClaimCodeAttempt db1 code now 3 900000).2, mem1, false⟩
    else
      ⟨ClaimResp.notFound,
       (recordInvalidClaimCodeAttempt db1 code now 3 900000).2, mem1, false⟩
  | some claim => claimStage4 env db1 mem1 claim addr now

/-- Claim step ii: the code-scoped lockout with lazy expiry. -/
def claimStage2 (env : ClaimEnv) (db : DbState) (mem1 : List Bucket)
    (code addr : Str) (now : Int) : ClaimOutcome :=
  if lockActiveB
      ((getClaimAttemptByCode db code).bind (fun a => a.lock_expires_at)) now then
    ⟨ClaimResp.rateLimited, db, mem1, false⟩
  else
    claimStage3 env
      (if lockPassedB
          ((getClaimAttemptByCode db code).bind (fun a => a.lock_expires_at))
          now then
        clearClaimAttemptLock db code now
       else db)
      mem1 code addr now

/-- Embedding of the claim route: step i is the per-ip in-memory rate
check, followed by the presence check on the body fields and the chain
of steps ii through xii. -/
def claimHandler (env : ClaimEnv) (db : DbState) (mem : List Bucket)
    (req : ClaimReq) (now : Int) : ClaimOutcome :=
  if (allowRateLimit mem (ipKeyOf req) env.claimRateLimit now).1 = false then
    ⟨ClaimResp.rateLimited, db,
     (allowRateLimit mem (ipKeyOf req) env.claimRateLimit now).2, false⟩
  else if truthyFilter req.claimCode = none ∨ truthyFilter req.address = none then
    ⟨ClaimResp.missingFields, db,
     (allowRateLimit mem (ipKeyOf req) env.claimRateLimit now).2, false⟩
  else
    claimStage2 env db
      (allowRateLimit mem (ipKeyOf req) env.claimRateLimit now).2
      ((truthyFilter req.claimCode).getD []) ((truthyFilter req.address).getD [])
      now

/-- An already-settled round with claim code "c", winner "u1" and
recorded transaction id "x". -/
def roundU : TriviaRound :=
  { trivia_id := [116], tweet_id := [112], correct_answers := [],
    window_minutes := 10, reward_rmz := 3, created_at := 0, closes_at := 1,
    statusClosed := true, winner_twitter_user_id := some [117, 49],
    winner_tweet_id := some [49], claim_code := some [99],
    claim_expires_at := some 900000, used_at := some 5,
    used_address := some [97], txid := some [120] }

/-- A store holding `roundU` and an expired code-scoped lockout row. -/
def dbC6 : DbState := ⟨[roundU], [⟨[99], 3, some 2, 0⟩], [], []⟩

/-- A permissive claim environment. -/
def envC6 : ClaimEnv := ⟨10, true, true, true, 50, 1, 3, none⟩

/-- A claim request for code "c" from address "a". -/
def reqC6 : ClaimReq := ⟨some [99], some [97], none, some [105]⟩

/-- An unclaimed closed round with claim code "c" and winner "u1". -/
def round8 : TriviaRound :=
  { trivia_id := [116], tweet_id := [112], correct_answers := [],
    window_minutes := 10, reward_rmz := 3, created_at := 0, closes_at := 1,
    statusClosed := true, winner_twitter_user_id := some [117, 49],
    winner_tweet_id := some [49], claim_code := some [99],
    claim_expires_at := some 900000 }

/-- A store where the daily spend for 1970-01-01 already equals the cap
of 50. -/
def db8 : DbState :=
  ⟨[round8], [], [], [([49, 57, 55, 48, 45, 48, 49, 45, 48, 49], 50)]⟩

/-- A syntactically valid payout address "ecash:1234567". -/
def addr8 : Str := [101, 99, 97, 115, 104, 58, 49, 50, 51, 52, 53, 54, 55]

/-- A claim request for code "c" from `addr8`. -/
def req8 : ClaimReq := ⟨some [99], some addr8, none, some [105]⟩

/-! ### Theorems -/

theorem isJsWs_iff (n : Nat) : isJsWs n = true ↔
    (n = 9 ∨ n = 10 ∨ n = 11 ∨ n = 12 ∨ n = 13 ∨ n = 32 ∨ n = 0xa0 ∨
     n = 0x1680 ∨ (0x2000 ≤ n ∧ n ≤ 0x200a) ∨ n = 0x2028 ∨ n = 0x2029 ∨
     n = 0x202f ∨ n = 0x205f ∨ n = 0x3000 ∨ n = 0xfeff) := by
  simp only [isJsWs, Bool.or_eq_true, beq_iff_eq, Bool.and_eq_true, decide_eq_true_eq]
  tauto

theorem isLowerAlnum_iff (n : Nat) : isLowerAlnum n = true ↔
    ((97 ≤ n ∧ n ≤ 122) ∨ (48 ≤ n ∧ n ≤ 57)) := by
  simp [isLowerAlnum]

theorem alnum_not_ws {n : Nat} (h : isLowerAlnum n = true) : isJsWs n = false := by
  rw [isLowerAlnum_iff] at h
  rw [← Bool.not_eq_true, isJsWs_iff]
  omega

theorem jsToLower_canon {n : Nat} (h : isCanonChar n = true) : jsToLower n = n := by
  have h' : (97 ≤ n ∧ n ≤ 122) ∨ (48 ≤ n ∧ n ≤ 57) ∨ n = 32 := by
    rcases Bool.or_eq_true _ _ |>.mp h with h1 | h1
    · rw [isLowerAlnum_iff] at h1; omega
    · simp at h1; omega
  unfold jsToLower
  rw [if_neg (by omega), if_neg (by omega)]

theorem canon_bounds {n : Nat} (h : isCanonChar n = true) : n ≤ 122 := by
  rcases Bool.or_eq_true _ _ |>.mp h with h1 | h1
  · rw [isLowerAlnum_iff] at h1; omega
  · simp at h1; omega

theorem decomposeChar_canon {n : Nat} (h : isCanonChar n = true) :
    decomposeChar n = [n] := by
  have := canon_bounds h
  unfold decomposeChar
  rw [if_pos (by omega)]

theorem isCombining_canon {n : Nat} (h : isCanonChar n = true) :
    (!isCombining n) = true := by
  have := canon_bounds h
  simp [isCombining]
  omega

theorem replaceNonAlnum_canon {n : Nat} (h : isCanonChar n = true) :
    replaceNonAlnum n = n := by
  rcases Bool.or_eq_true _ _ |>.mp h with h1 | h1
  · unfold replaceNonAlnum; rw [if_pos (by simp [h1])]
  · simp at h1
    subst h1
    unfold replaceNonAlnum
    rw [if_pos (by decide)]

theorem replaceNonAlnum_out (n : Nat) :
    (isLowerAlnum (replaceNonAlnum n) || isJsWs (replaceNonAlnum n)) = true := by
  unfold replaceNonAlnum
  by_cases h : (isLowerAlnum n || isJsWs n) = true
  · rw [if_pos h]; exact h
  · rw [if_neg h]; decide

theorem normalizeAnswer_eq_stages (s : Str) :
    normalizeAnswer s = jsTrim (collapseWs (stageA s)) := rfl

theorem map_id_on (f : Nat → Nat) :
    ∀ l : Str, (∀ c ∈ l, f c = c) → l.map f = l
  | [], _ => rfl
  | c :: t, h => by
    simp only [List.map_cons, h c (by simp)]
    rw [map_id_on f t (fun x hx => h x (by simp [hx]))]

theorem nfkd_cons (c : Nat) (t : Str) :
    nfkd (c :: t) = decomposeChar c ++ nfkd t := by
  simp [nfkd]

theorem nfkd_id_on : ∀ l : Str, (∀ c ∈ l, decomposeChar c = [c]) → nfkd l = l
  | [], _ => rfl
  | c :: t, h => by
    rw [nfkd_cons, h c (by simp), nfkd_id_on t (fun x hx => h x (by simp [hx]))]
    rfl

theorem stageA_id_on {l : Str} (h : ∀ c ∈ l, isCanonChar c = true) :
    stageA l = l := by
  unfold stageA
  rw [map_id_on jsToLower l (fun c hc => jsToLower_canon (h c hc)),
      nfkd_id_on l (fun c hc => decomposeChar_canon (h c hc)),
      List.filter_eq_self.mpr (fun c hc => isCombining_canon (h c hc)),
      map_id_on replaceNonAlnum l (fun c hc => replaceNonAlnum_canon (h c hc))]

theorem stageA_chars {l : Str} :
    ∀ c ∈ stageA l, (isLowerAlnum c || isJsWs c) = true := by
  intro c hc
  unfold stageA at hc
  rcases List.mem_map.mp hc with ⟨x, _, rfl⟩
  exact replaceNonAlnum_out x

theorem collapseAux_mem :
    ∀ (l : Str) (b : Bool) (c : Nat), c ∈ collapseAux b l →
      (c ∈ l ∧ isJsWs c = false) ∨ c = 32
  | [], _, _, h => by simp [collapseAux] at h
  | x :: t, b, c, h => by
    unfold collapseAux at h
    by_cases hw : isJsWs x = true
    · rw [if_pos hw] at h
      rcases b with _ | _
      · simp only [Bool.false_eq_true, if_false] at h
        rcases List.mem_cons.mp h with rfl | h'
        · right; rfl
        · rcases collapseAux_mem t true c h' with ⟨hm, hws⟩ | h32
          · exact Or.inl ⟨List.mem_cons_of_mem _ hm, hws⟩
          · exact Or.inr h32
      · simp only [if_true] at h
        rcases collapseAux_mem t true c h with ⟨hm, hws⟩ | h32
        · exact Or.inl ⟨List.mem_cons_of_mem _ hm, hws⟩
        · exact Or.inr h32
    · rw [if_neg hw] at h
      rcases List.mem_cons.mp h with rfl | h'
      · exact Or.inl ⟨List.mem_cons_self _ _, Bool.not_eq_true _ ▸ hw⟩
      · rcases collapseAux_mem t false c h' with ⟨hm, hws⟩ | h32
        · exact Or.inl ⟨List.mem_cons_of_mem _ hm, hws⟩
        · exact Or.inr h32

theorem collapse_headOk : ∀ l : Str, headOk (collapseAux true l) = true
  | [] => rfl
  | x :: t => by
    unfold collapseAux
    by_cases hw : isJsWs x = true
    · rw [if_pos hw]
      simpa using collapse_headOk t
    · rw [if_neg hw]
      simp [headOk, hw]

theorem noWW_tail {c : Nat} {t : Str} (h : noWW (c :: t) = true) : noWW t = true := by
  cases t with
  | nil => rfl
  | cons b t' => exact (Bool.and_eq_true _ _ |>.mp h).2

theorem noWW_cons_of_head {c : Nat} {t : Str} (hc : isJsWs c = false)
    (h : noWW t = true) : noWW (c :: t) = true := by
  cases t with
  | nil => rfl
  | cons b t' => simp [noWW, hc, h]

theorem noWW_cons_of_headOk {c : Nat} {t : Str} (hh : headOk t = true)
    (h : noWW t = true) : noWW (c :: t) = true := by
  cases t with
  | nil => rfl
  | cons b t' =>
    simp only [headOk, Bool.not_eq_true'] at hh
    simp [noWW, hh, h]

theorem collapse_noWW : ∀ (l : Str) (b : Bool), noWW (collapseAux b l) = true
  | [], _ => rfl
  | x :: t, b => by
    unfold collapseAux
    by_cases hw : isJsWs x = true
    · rw [if_pos hw]
      rcases b with _ | _
      · simp only [Bool.false_eq_true, if_false]
        exact noWW_cons_of_headOk (collapse_headOk t) (collapse_noWW t true)
      · simp only [if_true]
        exact collapse_noWW t true
    · rw [if_neg hw]
      exact noWW_cons_of_head (Bool.not_eq_true _ ▸ hw) (collapse_noWW t false)

theorem mem_dropWhile {p : Nat → Bool} :
    ∀ {l : Str} {c : Nat}, c ∈ l.dropWhile p → c ∈ l := by
  intro l
  induction l with
  | nil => intro c h; simp [List.dropWhile] at h
  | cons x t ih =>
    intro c h
    rw [List.dropWhile_cons] at h
    by_cases hp : p x = true
    · rw [if_pos hp] at h
      exact List.mem_cons_of_mem _ (ih h)
    · rw [if_neg hp] at h
      exact h

theorem dropWhile_headOk : ∀ l : Str, headOk (l.dropWhile isJsWs) = true
  | [] => rfl
  | x :: t => by
    rw [List.dropWhile_cons]
    by_cases hw : isJsWs x = true
    · rw [if_pos hw]; exact dropWhile_headOk t
    · rw [if_neg hw]; simp [headOk, hw]

theorem noWW_dropWhile {l : Str} (h : noWW l = true) :
    noWW (l.dropWhile isJsWs) = true := by
  induction l with
  | nil => exact h
  | cons x t ih =>
    rw [List.dropWhile_cons]
    by_cases hw : isJsWs x = true
    · rw [if_pos hw]; exact ih (noWW_tail h)
    · rw [if_neg hw]; exact h

theorem rtrim_shape (c : Nat) (t : Str) :
    rtrimWs (c :: t) = [] ∨ ∃ u, rtrimWs (c :: t) = c :: u := by
  unfold rtrimWs
  cases hr : rtrimWs t with
  | nil =>
    by_cases hw : isJsWs c = true
    · left; simp [hw]
    · right; exact ⟨[], by simp [hw]⟩
  | cons y u => right; exact ⟨y :: u, rfl⟩

theorem rtrim_mem : ∀ {l : Str} {c : Nat}, c ∈ rtrimWs l → c ∈ l := by
  intro l
  induction l with
  | nil => intro c h; simp [rtrimWs] at h
  | cons x t ih =>
    intro c h
    unfold rtrimWs at h
    cases hr : rtrimWs t with
    | nil =>
      rw [hr] at h
      by_cases hw : isJsWs x = true
      · simp [hw] at h
      · simp [hw] at h
        simp [h]
    | cons y u =>
      rw [hr] at h
      rcases List.mem_cons.mp h with rfl | h'
      · exact List.mem_cons_self _ _
      · exact List.mem_cons_of_mem _ (ih (hr ▸ h'))

theorem noWW_rtrim : ∀ {l : Str}, noWW l = true → noWW (rtrimWs l) = true := by
  intro l
  induction l with
  | nil => intro h; exact h
  | cons c t ih =>
    intro h
    unfold rtrimWs
    cases hr : rtrimWs t with
    | nil =>
      by_cases hw : isJsWs c = true
      · simp [hw, noWW]
      · simp [hw, noWW]
    | cons y u =>
      have ht : noWW (y :: u) = true := by
        have := ih (noWW_tail h); rwa [hr] at this
      cases t with
      | nil => simp [rtrimWs] at hr
      | cons z t' =>
        have hzy : z = y := by
          rcases rtrim_shape z t' with h0 | ⟨u', hu⟩
          · rw [h0] at hr; cases hr
          · have := hu.symm.trans hr
            injection this with h1 _
        simp only [noWW, Bool.and_eq_true] at h
        rw [hzy] at h
        simp only [noWW, Bool.and_eq_true]
        exact ⟨h.1, ht⟩

theorem headOk_rtrim {l : Str} (h : headOk l = true) :
    headOk (rtrimWs l) = true := by
  cases l with
  | nil => exact h
  | cons c t =>
    rcases rtrim_shape c t with h0 | ⟨u, hu⟩
    · rw [h0]; rfl
    · rw [hu]
      simpa [headOk] using h

theorem lastOk_rtrim : ∀ l : Str, lastOk (rtrimWs l) = true
  | [] => rfl
  | c :: t => by
    unfold rtrimWs
    cases hr : rtrimWs t with
    | nil =>
      by_cases hw : isJsWs c = true
      · simp [hw, lastOk]
      · simp [hw, lastOk]
    | cons y u =>
      have := lastOk_rtrim t
      rw [hr] at this
      simpa [lastOk] using this

theorem collapse_chars {l : Str}
    (h : ∀ c ∈ l, (isLowerAlnum c || isJsWs c) = true) :
    ∀ c ∈ collapseWs l, isCanonChar c = true := by
  intro c hc
  rcases collapseAux_mem l false c hc with ⟨hm, hws⟩ | rfl
  · have := h c hm
    rw [hws, Bool.or_false] at this
    simp [isCanonChar, this]
  · decide

theorem onlySpace_of_canon {l : Str} (h : ∀ c ∈ l, isCanonChar c = true) :
    ∀ c ∈ l, isJsWs c = true → c = 32 := by
  intro c hc hw
  rcases Bool.or_eq_true _ _ |>.mp (h c hc) with h1 | h1
  · rw [alnum_not_ws h1] at hw; cases hw
  · simpa using h1

theorem collapse_id : ∀ l : Str, (∀ c ∈ l, isJsWs c = true → c = 32) →
    noWW l = true →
    collapseAux false l = l ∧ (headOk l = true → collapseAux true l = l)
  | [], _, _ => ⟨rfl, fun _ => rfl⟩
  | c :: t, h, hn => by
    have ih := collapse_id t (fun x hx => h x (by simp [hx])) (noWW_tail hn)
    by_cases hw : isJsWs c = true
    · have hc32 : c = 32 := h c (by simp) hw
      subst hc32
      have hht : headOk t = true := by
        cases t with
        | nil => rfl
        | cons y t' =>
          have := (Bool.and_eq_true _ _ |>.mp hn).1
          simp only [Bool.not_eq_true', Bool.and_eq_false_iff] at this
          rcases this with h32 | hy
          · cases h32
          · simp [headOk, hy]
      constructor
      · unfold collapseAux
        rw [if_pos hw]
        simp only [Bool.false_eq_true, if_false]
        rw [ih.2 hht]
      · intro hh
        simp [headOk, hw] at hh
    · constructor
      · unfold collapseAux
        rw [if_neg hw, ih.1]
      · intro _
        unfold collapseAux
        rw [if_neg hw, ih.1]

theorem dropWhile_id {l : Str} (h : headOk l = true) :
    l.dropWhile isJsWs = l := by
  cases l with
  | nil => rfl
  | cons c t =>
    simp only [headOk, Bool.not_eq_true'] at h
    rw [List.dropWhile_cons, if_neg (by simp [h])]

theorem rtrim_id : ∀ l : Str, lastOk l = true → rtrimWs l = l
  | [], _ => rfl
  | c :: t, h => by
    cases t with
    | nil =>
      simp only [lastOk, Bool.not_eq_true'] at h
      simp [rtrimWs, h]
    | cons y t' =>
      have ht : rtrimWs (y :: t') = y :: t' := rtrim_id (y :: t') (by simpa [lastOk] using h)
      unfold rtrimWs
      rw [ht]

/-- After one pass of the normalizer the output is canonical: every
character is a lower-case letter, a digit or a space, there are no two
adjacent spaces, and neither end is a space. -/
theorem normalize_canonical (s : Str) :
    (∀ c ∈ normalizeAnswer s, isCanonChar c = true) ∧
    noWW (normalizeAnswer s) = true ∧
    headOk (normalizeAnswer s) = true ∧
    lastOk (normalizeAnswer s) = true := by
  rw [normalizeAnswer_eq_stages]
  unfold jsTrim
  refine ⟨?_, ?_, ?_, ?_⟩
  · intro c hc
    exact collapse_chars stageA_chars c (mem_dropWhile (rtrim_mem hc))
  · exact noWW_rtrim (noWW_dropWhile (collapse_noWW (stageA s) false))
  · exact headOk_rtrim (dropWhile_headOk _)
  · exact lastOk_rtrim _

theorem normalize_id_of_canonical {l : Str}
    (h1 : ∀ c ∈ l, isCanonChar c = true) (h2 : noWW l = true)
    (h3 : headOk l = true) (h4 : lastOk l = true) :
    normalizeAnswer l = l := by
  rw [normalizeAnswer_eq_stages, stageA_id_on h1]
  unfold collapseWs
  rw [(collapse_id l (onlySpace_of_canon h1) h2).1]
  unfold jsTrim
  rw [dropWhile_id h3, rtrim_id l h4]

/-- C3: `normalizeAnswer` is a total function (it is a Lean function on
all of `Str`, hence never fails) and is idempotent; in particular it is
case- and diacritic-insensitive, as witnessed by normalizing the string
"Café!" and the string "cafe" to the same result. -/
theorem C3_normalizeAnswer_total_idempotent (s : Str) :
    normalizeAnswer (normalizeAnswer s) = normalizeAnswer s ∧
    normalizeAnswer [67, 97, 102, 233, 33] = normalizeAnswer [99, 97, 102, 101] := by
  constructor
  · obtain ⟨h1, h2, h3, h4⟩ := normalize_canonical s
    exact normalize_id_of_canonical h1 h2 h3 h4
  · decide

set_option maxRecDepth 100000 in
theorem sha256_vector_empty :
    sha256Bytes [] =
      [227, 176, 196, 66, 152, 252, 28, 20, 154, 251, 244, 200, 153, 111, 185,
       36, 39, 174, 65, 228, 100, 155, 147, 76, 164, 149, 153, 27, 120, 82,
       184, 85] := by decide

set_option maxRecDepth 100000 in
theorem sha256_vector_abc :
    sha256Bytes [97, 98, 99] =
      [186, 120, 22, 191, 143, 1, 207, 234, 65, 65, 64, 222, 93, 174, 34, 35,
       176, 3, 97, 163, 150, 23, 122, 156, 180, 16, 255, 97, 242, 0, 21,
       173] := by decide

/-- The selector's result for a positive count is the digest reduced
modulo the count, hence nonnegative and below the count. -/
theorem deterministicPick_range {seed : Str} {count : Int} (h : 0 < count) :
    deterministicPick seed count = (sha256Nat (utf8Encode seed) : Int) % count ∧
    0 ≤ deterministicPick seed count ∧ deterministicPick seed count < count := by
  have heq : deterministicPick seed count =
      (sha256Nat (utf8Encode seed) : Int) % count := by
    unfold deterministicPick
    rw [if_neg (by omega)]
  refine ⟨heq, ?_, ?_⟩
  · rw [heq]; exact Int.emod_nonneg _ (by omega)
  · rw [heq]; exact Int.emod_lt_of_pos _ h

/-- C2: `deterministicPick` returns the sentinel -1 for every
nonpositive count; for every positive count it equals the SHA-256 digest
of the UTF-8 bytes of the seed read as an unsigned integer and reduced
modulo the count, and therefore lies in the interval from 0 inclusive to
the count exclusive.  Determinism is immediate since the embedding is a
pure function of its two arguments. -/
theorem C2_deterministicPick_spec (seed : Str) (count : Int) :
    (count ≤ 0 → deterministicPick seed count = -1) ∧
    (0 < count →
      deterministicPick seed count = (sha256Nat (utf8Encode seed) : Int) % count ∧
      0 ≤ deterministicPick seed count ∧ deterministicPick seed count < count) := by
  constructor
  · intro h
    unfold deterministicPick
    rw [if_pos h]
  · intro h
    exact deterministicPick_range h

/-- Witness for C2 at concrete inputs: the seed "a" with counts -1 and 5. -/
theorem C2_deterministicPick_spec_witness :
    deterministicPick [97] (-1) = -1 ∧
    (deterministicPick [97] 5 = (sha256Nat (utf8Encode [97]) : Int) % 5 ∧
      0 ≤ deterministicPick [97] 5 ∧ deterministicPick [97] 5 < 5) :=
  ⟨(C2_deterministicPick_spec [97] (-1)).1 (by decide),
   (C2_deterministicPick_spec [97] 5).2 (by decide)⟩

/-- C4 counterexample: a raw tweet whose author user id is extractable
but whose tweet id is not.  The claim's drop condition does not hold for
it, yet the code drops it (its parse fails on the missing id). -/
theorem C4_counterexample :
    tweetToReply [114] [112] [] 0 100 50
        { userIdCamel := some [117, 49], textField := some [104, 105] } = none ∧
    specDropsReply [112] 0 100
        { userIdCamel := some [117, 49], textField := some [104, 105] } = false := by
  decide

/-- C4 amended: a reply is dropped exactly when its tweet id or its
author user id cannot be extracted, when its in-reply-to id is present
and differs from the contest post id, or when its creation timestamp is
known, nonzero and outside the window (a zero timestamp is falsy in
JavaScript and treated as unknown, hence kept); every kept reply is
marked correct exactly when its normalized text equals one of the
round's normalized answers. -/
theorem C4_collectReplies_filter (triviaId postId : Str) (answers : List Str)
    (windowStart windowEnd now : Int) (raw : RawTweet) :
    (tweetToReply triviaId postId answers windowStart windowEnd now raw = none ↔
      codeDropsReply postId windowStart windowEnd raw = true) ∧
    (∀ rep, tweetToReply triviaId postId answers windowStart windowEnd now raw =
        some rep →
      rep.normalized_text = normalizeAnswer (textOf raw) ∧
      (rep.is_correct = true ↔ normalizeAnswer (textOf raw) ∈ answers)) := by
  by_cases hid : idOf raw = []
  · constructor
    · simp [tweetToReply, parseTweetForReply, codeDropsReply, hid]
    · intro rep hrep
      simp [tweetToReply, parseTweetForReply, hid] at hrep
  · by_cases hau : authorOf raw = []
    · constructor
      · simp [tweetToReply, parseTweetForReply, codeDropsReply, hid, hau]
      · intro rep hrep
        simp [tweetToReply, parseTweetForReply, hid, hau] at hrep
    · have hp : parseTweetForReply raw = some
          { id := idOf raw, text := textOf raw, twitterUserId := authorOf raw,
            twitterUsername :=
              if usernameOf raw = [] then none else some (usernameOf raw),
            inReplyToStatusId :=
              if replyToOf raw = [] then none else some (replyToOf raw),
            createdAtMs := createdAtOf raw } := by
        unfold parseTweetForReply
        rw [if_neg hid, if_neg hau]
      have hmis : (match (if replyToOf raw = [] then none else some (replyToOf raw))
          with
          | some r => decide (r ≠ postId)
          | none => false) =
          (match replyToOf raw with
           | [] => false
           | r => decide (r ≠ postId)) := by
        rcases hr : replyToOf raw with _ | ⟨c, r'⟩ <;> simp
      rcases hmm : (match replyToOf raw with
          | [] => false
          | r => decide (r ≠ postId)) with _ | _
      · rcases hout : (match createdAtOf raw with
            | some t => decide (t ≠ 0) &&
                (decide (t < windowStart) || decide (windowEnd < t))
            | none => false) with _ | _
        · constructor
          · simp only [tweetToReply, hp, codeDropsReply, hmis, hmm, hout,
              Bool.false_eq_true, if_false, Bool.or_false]
            rcases hca : createdAtOf raw with _ | t
            · simp [hid, hau]
            · rw [hca] at hout
              simp [hid, hau, hout]
          · intro rep hrep
            simp only [tweetToReply, hp, hmis, hmm, Bool.false_eq_true, if_false,
              Option.some.injEq] at hrep
            rw [hout] at hrep
            simp only [Bool.false_eq_true, if_false, Option.some.injEq] at hrep
            subst hrep
            simp [List.elem_iff]
        · constructor
          · simp only [tweetToReply, hp, codeDropsReply, hmis, hmm, hout,
              Bool.false_eq_true, if_false, if_true, Bool.or_true, true_iff]
          · intro rep hrep
            simp only [tweetToReply, hp, hmis, hmm, Bool.false_eq_true, if_false,
              Option.some.injEq] at hrep
            rw [hout] at hrep
            simp at hrep
      · constructor
        · simp only [tweetToReply, hp, codeDropsReply, hmis, hmm, if_true,
            Bool.or_true, Bool.true_or, true_iff]
        · intro rep hrep
          simp only [tweetToReply, hp, hmis, hmm, if_true] at hrep
          cases hrep

/-- Witness for the amended C4 theorem at a concrete kept reply, against
the answer list ["hi"]. -/
theorem C4_collectReplies_filter_witness :
    (tweetToReply [114] [112] [[104, 105]] 0 100 50 rawKeptC4 = none ↔
      codeDropsReply [112] 0 100 rawKeptC4 = true) ∧
    (repKeptC4.normalized_text = normalizeAnswer (textOf rawKeptC4) ∧
     (repKeptC4.is_correct = true ↔
       normalizeAnswer (textOf rawKeptC4) ∈ [[104, 105]])) :=
  ⟨(C4_collectReplies_filter [114] [112] [[104, 105]] 0 100 50 rawKeptC4).1,
   (C4_collectReplies_filter [114] [112] [[104, 105]] 0 100 50 rawKeptC4).2
     repKeptC4 (by decide)⟩

/-! ### Settlement and lockout theorems -/


theorem listMapId {α : Type} (f : α → α) :
    ∀ l : List α, (∀ a ∈ l, f a = a) → l.map f = l
  | [], _ => rfl
  | a :: t, h => by
    simp only [List.map_cons, h a (by simp)]
    rw [listMapId f t (fun x hx => h x (by simp [hx]))]

theorem getDailySpend_eq_spendLookup (db : DbState) (day : Str) :
    getDailySpend db day = spendLookup db.dailySpend day := rfl

theorem spendLookup_upsert (day : Str) (amt : Int) :
    ∀ l : List (Str × Int),
      spendLookup
        (if l.any (fun e => decide (e.1 = day)) then
          l.map (fun e => if e.1 = day then (e.1, e.2 + amt) else e)
         else l ++ [(day, amt)]) day = spendLookup l day + amt
  | [] => by simp [spendLookup, List.find?]
  | e :: t => by
    by_cases he : e.1 = day
    · have hany : ((e :: t).any (fun e => decide (e.1 = day))) = true := by
        simp [List.any_cons, he]
      rw [if_pos hany]
      simp only [List.map_cons, if_pos he]
      simp [spendLookup, List.find?_cons, he]
    · have hany : ((e :: t).any (fun e => decide (e.1 = day))) =
          (t.any (fun e => decide (e.1 = day))) := by
        simp [List.any_cons, he]
      have ih := spendLookup_upsert day amt t
      by_cases ht : (t.any (fun e => decide (e.1 = day))) = true
      · rw [if_pos (by rw [hany]; exact ht)]
        rw [if_pos ht] at ih
        simp only [List.map_cons, if_neg he]
        simpa [spendLookup, List.find?_cons, he] using ih
      · rw [if_neg (by rw [hany]; exact ht)]
        rw [if_neg ht] at ih
        simp only [List.cons_append]
        simpa [spendLookup, List.find?_cons, he] using ih

theorem spendLookup_increment (db : DbState) (day : Str) (amt : Int) :
    getDailySpend (incrementDailySpend db day amt) day =
      getDailySpend db day + amt := by
  rw [getDailySpend_eq_spendLookup, getDailySpend_eq_spendLookup]
  unfold incrementDailySpend
  have := spendLookup_upsert day amt db.dailySpend
  by_cases h : (db.dailySpend.any (fun e => decide (e.1 = day))) = true
  · rw [if_pos h]
    rw [if_pos h] at this
    exact this
  · rw [if_neg h]
    rw [if_neg h] at this
    exact this

theorem incrementDailySpend_payouts (db : DbState) (day : Str) (amt : Int) :
    (incrementDailySpend db day amt).payouts = db.payouts := by
  unfold incrementDailySpend
  by_cases h : (db.dailySpend.any (fun e => decide (e.1 = day))) = true
  · rw [if_pos h]
  · rw [if_neg h]

theorem incrementDailySpend_rounds (db : DbState) (day : Str) (amt : Int) :
    (incrementDailySpend db day amt).rounds = db.rounds := by
  unfold incrementDailySpend
  by_cases h : (db.dailySpend.any (fun e => decide (e.1 = day))) = true
  · rw [if_pos h]
  · rw [if_neg h]

theorem markClaimUsed_identity {db : DbState} {tid : Str} {usedAt : Int}
    {addr txid : Str}
    (h : (markClaimUsed db tid usedAt addr txid).1 = false) :
    (markClaimUsed db tid usedAt addr txid).2 = db := by
  have h' : ∀ r ∈ db.rounds, ¬(r.trivia_id = tid ∧ r.used_at = none) := by
    intro r hr hc
    have hT : (markClaimUsed db tid usedAt addr txid).1 = true := by
      unfold markClaimUsed
      simp only [List.any_eq_true, decide_eq_true_eq]
      exact ⟨r, hr, hc⟩
    rw [hT] at h
    cases h
  unfold markClaimUsed
  cases db with
  | mk rounds attempts payouts daily =>
    simp only [DbState.mk.injEq, and_true, true_and]
    exact listMapId _ _ (fun r hr => by rw [if_neg (h' r hr)])

/-- C1: settlement is one atomic conditional transaction.  The
conditional update touches exactly the rounds whose `used_at` is null;
it reports success exactly when such a round with the requested id
exists; on success the payout row is appended and the day's spend grows
by the amount; on failure (the round already settled or missing) the
state is returned unchanged; and the payout-per-round invariant is
preserved, so at most one payout ever exists per round id. -/
theorem C1_settlement_atomic (db : DbState) (tid : Str) (usedAt : Int)
    (addr txid user : Str) (amt : Int) (day : Str) (hinv : PayoutInv db) :
    ((recordClaimAndPayout db tid usedAt addr txid user amt day).1 = true ↔
      ∃ r ∈ db.rounds, r.trivia_id = tid ∧ r.used_at = none) ∧
    ((recordClaimAndPayout db tid usedAt addr txid user amt day).2.rounds =
      db.rounds.map (fun r =>
        if r.trivia_id = tid ∧ r.used_at = none then
          { r with used_at := some usedAt, used_address := some addr,
                   txid := some txid, invalid_attempts := 0,
                   lock_expires_at := none }
        else r)) ∧
    ((recordClaimAndPayout db tid usedAt addr txid user amt day).1 = true →
      (recordClaimAndPayout db tid usedAt addr txid user amt day).2.payouts =
        db.payouts ++ [⟨tid, user, addr, amt, txid, usedAt, day⟩] ∧
      getDailySpend (recordClaimAndPayout db tid usedAt addr txid user amt day).2
          day =
        getDailySpend db day + amt) ∧
    ((recordClaimAndPayout db tid usedAt addr txid user amt day).1 = false →
      (recordClaimAndPayout db tid usedAt addr txid user amt day).2 = db) ∧
    PayoutInv (recordClaimAndPayout db tid usedAt addr txid user amt day).2 := by
  have hfst : (recordClaimAndPayout db tid usedAt addr txid user amt day).1 =
      (markClaimUsed db tid usedAt addr txid).1 := by
    unfold recordClaimAndPayout
    by_cases h : (markClaimUsed db tid usedAt addr txid).1 = true
    · rw [if_pos h, h]
    · rw [if_neg (by simpa using h)]
      simp at h
      rw [h]
  by_cases h : (markClaimUsed db tid usedAt addr txid).1 = true
  · have hres : recordClaimAndPayout db tid usedAt addr txid user amt day =
        (true, incrementDailySpend
          (recordPayout (markClaimUsed db tid usedAt addr txid).2
            ⟨tid, user, addr, amt, txid, usedAt, day⟩) day amt) := by
      unfold recordClaimAndPayout
      rw [if_pos h]
    obtain ⟨r0, hr0, hc0⟩ : ∃ r ∈ db.rounds, r.trivia_id = tid ∧ r.used_at = none := by
      have := h
      unfold markClaimUsed at this
      simpa [List.any_eq_true] using this
    have hpay : (recordClaimAndPayout db tid usedAt addr txid user amt day).2.payouts =
        db.payouts ++ [⟨tid, user, addr, amt, txid, usedAt, day⟩] := by
      rw [hres]
      simp [incrementDailySpend_payouts, recordPayout, markClaimUsed]
    have hnotid : ∀ p ∈ db.payouts, p.trivia_id ≠ tid := by
      intro p hp heq
      exact hinv.1 p hp r0 hr0 (hc0.1.trans heq.symm) hc0.2
    refine ⟨?_, ?_, ?_, ?_, ?_⟩
    · rw [hfst]
      constructor
      · intro _; exact ⟨r0, hr0, hc0⟩
      · intro _; exact h
    · rw [hres]
      simp [incrementDailySpend_rounds, recordPayout, markClaimUsed]
    · intro _
      refine ⟨hpay, ?_⟩
      rw [hres]
      have hd : getDailySpend
          (recordPayout (markClaimUsed db tid usedAt addr txid).2
            ⟨tid, user, addr, amt, txid, usedAt, day⟩) day =
          getDailySpend db day := by
        simp [getDailySpend, recordPayout, markClaimUsed]
      rw [spendLookup_increment, hd]
    · intro hfalse
      rw [hfst] at hfalse
      rw [h] at hfalse
      cases hfalse
    · constructor
      · intro p hp r' hr'
        rw [hpay] at hp
        have hrounds : (recordClaimAndPayout db tid usedAt addr txid user amt
            day).2.rounds = db.rounds.map (fun r =>
              if r.trivia_id = tid ∧ r.used_at = none then
                { r with used_at := some usedAt, used_address := some addr,
                         txid := some txid, invalid_attempts := 0,
                         lock_expires_at := none }
              else r) := by
          rw [hres]
          simp [incrementDailySpend_rounds, recordPayout, markClaimUsed]
        rw [hrounds] at hr'
        rcases List.mem_map.mp hr' with ⟨r, hr, rfl⟩
        rcases List.mem_append.mp hp with hpold | hpnew
        · by_cases hc : r.trivia_id = tid ∧ r.used_at = none
          · rw [if_pos hc]; simp
          · rw [if_neg hc]; exact hinv.1 p hpold r hr
        · simp only [List.mem_singleton] at hpnew
          subst hpnew
          by_cases hc : r.trivia_id = tid ∧ r.used_at = none
          · rw [if_pos hc]; simp
          · rw [if_neg hc]
            intro htid hused
            exact hc ⟨htid, hused⟩
      · rw [hpay]
        rw [List.pairwise_append]
        refine ⟨hinv.2, List.pairwise_singleton _ _, ?_⟩
        intro p hp q hq
        simp only [List.mem_singleton] at hq
        subst hq
        simpa using hnotid p hp
  · have hres : recordClaimAndPayout db tid usedAt addr txid user amt day =
        (false, (markClaimUsed db tid usedAt addr txid).2) := by
      unfold recordClaimAndPayout
      rw [if_neg (by simpa using h)]
    have hid : (markClaimUsed db tid usedAt addr txid).2 = db :=
      markClaimUsed_identity (by simpa using h)
    refine ⟨?_, ?_, ?_, ?_, ?_⟩
    · rw [hfst]
      have hF : (markClaimUsed db tid usedAt addr txid).1 = false := by
        simpa using h
      rw [hF]
      simp only [Bool.false_eq_true, false_iff]
      intro hex
      rcases hex with ⟨r, hr, hc⟩
      refine h ?_
      unfold markClaimUsed
      simp only [List.any_eq_true, decide_eq_true_eq]
      exact ⟨r, hr, hc⟩
    · rw [hres, hid]
      symm
      refine listMapId _ _ (fun r hr => ?_)
      rw [if_neg ?_]
      intro hc
      apply h
      unfold markClaimUsed
      simp only [List.any_eq_true, decide_eq_true_eq]
      exact ⟨r, hr, hc⟩
    · intro htrue
      rw [hfst] at htrue
      exact absurd htrue h
    · intro _
      rw [hres, hid]
    · rw [hres, hid]
      exact hinv

/-- Witness for C1 at the concrete store `dbW`. -/
theorem C1_settlement_atomic_witness :
    PayoutInv dbW ∧
    (((recordClaimAndPayout dbW [116] 7 [97] [120] [117, 49] 3 [100]).1 = true ↔
      ∃ r ∈ dbW.rounds, r.trivia_id = [116] ∧ r.used_at = none) ∧
    ((recordClaimAndPayout dbW [116] 7 [97] [120] [117, 49] 3 [100]).2.rounds =
      dbW.rounds.map (fun r =>
        if r.trivia_id = [116] ∧ r.used_at = none then
          { r with used_at := some 7, used_address := some [97],
                   txid := some [120], invalid_attempts := 0,
                   lock_expires_at := none }
        else r)) ∧
    ((recordClaimAndPayout dbW [116] 7 [97] [120] [117, 49] 3 [100]).1 = true →
      (recordClaimAndPayout dbW [116] 7 [97] [120] [117, 49] 3 [100]).2.payouts =
        dbW.payouts ++ [⟨[116], [117, 49], [97], 3, [120], 7, [100]⟩] ∧
      getDailySpend
          (recordClaimAndPayout dbW [116] 7 [97] [120] [117, 49] 3 [100]).2
          [100] =
        getDailySpend dbW [100] + 3) ∧
    ((recordClaimAndPayout dbW [116] 7 [97] [120] [117, 49] 3 [100]).1 = false →
      (recordClaimAndPayout dbW [116] 7 [97] [120] [117, 49] 3 [100]).2 = dbW) ∧
    PayoutInv (recordClaimAndPayout dbW [116] 7 [97] [120] [117, 49] 3 [100]).2) :=
  ⟨by constructor <;> simp [PayoutInv, dbW],
   C1_settlement_atomic dbW [116] 7 [97] [120] [117, 49] 3 [100]
     (by constructor <;> simp [PayoutInv, dbW])⟩

/-- C10: a successful `markClaimUsed` does more than set the used
fields: the same conditional update also resets the round's
invalid-attempt counter to zero and clears its lock expiry. -/
theorem C10_markClaimUsed_clears_lockout (db : DbState) (tid : Str)
    (usedAt : Int) (addr txid : Str) (r : TriviaRound)
    (hr : r ∈ db.rounds) (hid : r.trivia_id = tid) (hused : r.used_at = none) :
    (markClaimUsed db tid usedAt addr txid).1 = true ∧
    { r with used_at := some usedAt, used_address := some addr,
             txid := some txid, invalid_attempts := 0,
             lock_expires_at := none } ∈
      (markClaimUsed db tid usedAt addr txid).2.rounds := by
  constructor
  · unfold markClaimUsed
    simp only [List.any_eq_true, decide_eq_true_eq]
    exact ⟨r, hr, hid, hused⟩
  · unfold markClaimUsed
    refine List.mem_map.mpr ⟨r, hr, ?_⟩
    rw [if_pos ⟨hid, hused⟩]

/-- Witness for C10 at the concrete store `dbW`. -/
theorem C10_markClaimUsed_clears_lockout_witness :
    (markClaimUsed dbW [116] 7 [97] [120]).1 = true ∧
    { roundW with used_at := some 7, used_address := some [97],
                  txid := some [120], invalid_attempts := 0,
                  lock_expires_at := none } ∈
      (markClaimUsed dbW [116] 7 [97] [120]).2.rounds :=
  C10_markClaimUsed_clears_lockout dbW [116] 7 [97] [120] roundW
    (by decide) (by decide) (by decide)

/-- C7 counterexample: the stored lock expiry is set (to zero) and the
current time 100 has reached it, so the claim predicts a reset followed
by an increment, giving counter 1 with the lock cleared; the code's
truthiness test skips the reset for a zero timestamp and yields counter
2 with the zero lock retained. -/
theorem C7_counterexample :
    getTrivia dbZ [116] = some roundZ ∧
    roundZ.lock_expires_at = some 0 ∧ (0 : Int) ≤ 100 ∧
    (recordInvalidAttempt dbZ [116] 100 3 900000).1 = (2, some 0) ∧
    (recordInvalidAttempt dbZ [116] 100 3 900000).1 ≠ (1, none) := by
  decide

/-- C7 amended: for both attempt counters, when the stored lock expiry
is set, nonzero (a zero timestamp is falsy in JavaScript and treated as
unset) and reached by the current time, the counter is first reset and
the lock cleared; the count is then incremented, and whenever the
resulting count reaches the maximum the lock is armed to the current
time plus the lock window.  The round-scoped call writes only the
matching round's counter columns; the code-scoped call upserts only the
matching attempt row. -/
theorem C7_lockout_lazy_expiry (db : DbState) (tid code : Str)
    (now maxAttempts lockMs : Int) :
    (let count0 : Int := match getTrivia db tid with
       | some r => r.invalid_attempts
       | none => 0
     let lock0 : Option Int := match getTrivia db tid with
       | some r => r.lock_expires_at
       | none => none
     let expired : Bool := match lock0 with
       | some l => decide (l ≠ 0) && decide (now ≥ l)
       | none => false
     let count1 : Int := (if expired then 0 else count0) + 1
     let lock1 : Option Int :=
       if count1 ≥ maxAttempts then some (now + lockMs)
       else if expired then none else lock0
     (recordInvalidAttempt db tid now maxAttempts lockMs).1 = (count1, lock1) ∧
     (recordInvalidAttempt db tid now maxAttempts lockMs).2.rounds =
       db.rounds.map (fun r =>
         if r.trivia_id = tid then
           { r with invalid_attempts := count1, lock_expires_at := lock1 }
         else r) ∧
     (recordInvalidAttempt db tid now maxAttempts lockMs).2.attempts =
       db.attempts ∧
     (recordInvalidAttempt db tid now maxAttempts lockMs).2.payouts =
       db.payouts ∧
     (recordInvalidAttempt db tid now maxAttempts lockMs).2.dailySpend =
       db.dailySpend) ∧
    (let count0 : Int := match getClaimAttemptByCode db code with
       | some a => a.invalid_attempts
       | none => 0
     let lock0 : Option Int := match getClaimAttemptByCode db code with
       | some a => a.lock_expires_at
       | none => none
     let expired : Bool := match lock0 with
       | some l => decide (l ≠ 0) && decide (now ≥ l)
       | none => false
     let count1 : Int := (if expired then 0 else count0) + 1
     let lock1 : Option Int :=
       if count1 ≥ maxAttempts then some (now + lockMs)
       else if expired then none else lock0
     (recordInvalidClaimCodeAttempt db code now maxAttempts lockMs).1 =
       (count1, lock1) ∧
     (recordInvalidClaimCodeAttempt db code now maxAttempts lockMs).2.attempts =
       (match getClaimAttemptByCode db code with
        | some _ => db.attempts.map (fun a =>
            if a.claim_code = code then
              { a with invalid_attempts := count1, lock_expires_at := lock1,
                       updated_at := now }
            else a)
        | none => db.attempts ++ [⟨code, count1, lock1, now⟩]) ∧
     (recordInvalidClaimCodeAttempt db code now maxAttempts lockMs).2.rounds =
       db.rounds ∧
     (recordInvalidClaimCodeAttempt db code now maxAttempts lockMs).2.payouts =
       db.payouts ∧
     (recordInvalidClaimCodeAttempt db code now maxAttempts lockMs).2.dailySpend =
       db.dailySpend) := by
  constructor
  · simp only [recordInvalidAttempt, lazyExpireStep]
    rcases hrow : getTrivia db tid with _ | r
    · simp only [hrow]
      refine ⟨?_, ?_, ?_, ?_, ?_⟩ <;> trivial
    · simp only [hrow]
      rcases hl : r.lock_expires_at with _ | l
      · refine ⟨?_, ?_, ?_, ?_, ?_⟩ <;> trivial
      · by_cases hcond : l ≠ 0 ∧ now ≥ l
        · have hdec : (decide (l ≠ 0) && decide (now ≥ l)) = true := by
            simp only [Bool.and_eq_true, decide_eq_true_eq]
            exact hcond
          simp [if_pos hcond, hdec]
        · have hdec : (decide (l ≠ 0) && decide (now ≥ l)) = false := by
            rcases not_and_or.mp hcond with hc | hc
            · simp [not_not.mp hc]
            · simp [hc]
          simp [if_neg hcond, hdec]
  · simp only [recordInvalidClaimCodeAttempt, lazyExpireStep]
    rcases hrow : getClaimAttemptByCode db code with _ | a
    · simp only [hrow]
      refine ⟨?_, ?_, ?_, ?_, ?_⟩ <;> trivial
    · simp only [hrow]
      rcases hl : a.lock_expires_at with _ | l
      · refine ⟨?_, ?_, ?_, ?_, ?_⟩ <;> trivial
      · by_cases hcond : l ≠ 0 ∧ now ≥ l
        · have hdec : (decide (l ≠ 0) && decide (now ≥ l)) = true := by
            simp only [Bool.and_eq_true, decide_eq_true_eq]
            exact hcond
          simp [if_pos hcond, hdec]
        · have hdec : (decide (l ≠ 0) && decide (now ≥ l)) = false := by
            rcases not_and_or.mp hcond with hc | hc
            · simp [not_not.mp hc]
            · simp [hc]
          simp [if_neg hcond, hdec]

/-- C5: an administrative request passes authentication only when the
extracted bearer credential equals the configured nonempty secret, and
every failure — missing configuration, missing credential or mismatched
credential — produces the same 401 unauthorized response. -/
theorem C5_requireAdmin_auth (expected : Option Str) (authL authU : Option Str) :
    ((requireAdmin expected authL authU).1 = true →
      ∃ s, expected = some s ∧ s ≠ [] ∧
        extractBearer (headerValue authL authU) = s) ∧
    ((requireAdmin expected authL authU).1 = false →
      (requireAdmin expected authL authU).2 = some (401, unauthorizedStr)) ∧
    (∀ s, expected = some s → s ≠ [] →
      extractBearer (headerValue authL authU) ≠ s →
      requireAdmin expected authL authU = (false, some (401, unauthorizedStr))) := by
  rcases expected with _ | s
  · refine ⟨?_, ?_, ?_⟩
    · intro h; cases h
    · intro _; rfl
    · intro s hs; cases hs
  · by_cases hemp : s = []
    · refine ⟨?_, ?_, ?_⟩
      · intro h
        simp [requireAdmin, hemp] at h
      · intro _
        simp [requireAdmin, hemp]
      · intro s' hs' hne
        injection hs' with he
        subst he
        exact absurd hemp hne
    · by_cases hmatch : extractBearer (headerValue authL authU) = s
      · refine ⟨?_, ?_, ?_⟩
        · intro _
          exact ⟨s, rfl, hemp, hmatch⟩
        · intro h
          simp [requireAdmin, hemp, hmatch] at h
        · intro s' hs' _ hne
          injection hs' with he
          subst he
          exact absurd hmatch hne
      · refine ⟨?_, ?_, ?_⟩
        · intro h
          simp [requireAdmin, hemp, hmatch] at h
        · intro _
          simp [requireAdmin, hemp, hmatch]
        · intro s' hs' _ _
          injection hs' with he
          subst he
          simp [requireAdmin, hemp, hmatch]

/-- Witness for C5: the secret "s" against the header "Bearer s"
(success case), a missing header, and the mismatched header "Bearer t". -/
theorem C5_requireAdmin_auth_witness :
    (∃ s, (some [115] : Option Str) = some s ∧ s ≠ [] ∧
      extractBearer (headerValue
        (some [66, 101, 97, 114, 101, 114, 32, 115]) none) = s) ∧
    (requireAdmin (some [115]) none none).2 = some (401, unauthorizedStr) ∧
    requireAdmin (some [115]) (some [66, 101, 97, 114, 101, 114, 32, 116]) none =
      (false, some (401, unauthorizedStr)) :=
  ⟨(C5_requireAdmin_auth (some [115])
      (some [66, 101, 97, 114, 101, 114, 32, 115]) none).1 (by decide),
   (C5_requireAdmin_auth (some [115]) none none).2.1 (by decide),
   (C5_requireAdmin_auth (some [115])
      (some [66, 101, 97, 114, 101, 114, 32, 116]) none).2.2 [115] rfl
     (by decide) (by decide)⟩

theorem mem_insertLex {x a : Str} : ∀ l : List Str,
    a ∈ insertLex x l ↔ a = x ∨ a ∈ l
  | [] => by simp [insertLex]
  | y :: t => by
    unfold insertLex
    by_cases h : lexLe x y = true
    · rw [if_pos h]
      simp
    · rw [if_neg h]
      rw [List.mem_cons, List.mem_cons, mem_insertLex t]
      tauto

theorem mem_sortLex {a : Str} : ∀ l : List Str, a ∈ sortLex l ↔ a ∈ l
  | [] => by simp [sortLex]
  | x :: t => by
    rw [show sortLex (x :: t) = insertLex x (sortLex t) from rfl,
      mem_insertLex, mem_sortLex t, List.mem_cons]

theorem getD_mem : ∀ (l : List Str) (i : Nat), i < l.length → l.getD i [] ∈ l
  | [], i, h => absurd h (by simp)
  | x :: t, 0, _ => by simp
  | x :: t, i + 1, h => by
    rw [List.getD_cons_succ]
    exact List.mem_cons_of_mem _ (getD_mem t i (by simpa using h))

theorem find?_exists {α : Type} (p : α → Bool) :
    ∀ l : List α, (∃ x ∈ l, p x = true) →
      ∃ w, l.find? p = some w ∧ p w = true
  | [], h => by simp at h
  | y :: t, h => by
    by_cases hy : p y = true
    · exact ⟨y, by simp [List.find?_cons, hy], hy⟩
    · rcases h with ⟨x, hx, hpx⟩
      rcases List.mem_cons.mp hx with rfl | hxt
      · exact absurd hpx hy
      · rcases find?_exists p t ⟨x, hxt, hpx⟩ with ⟨w, hw, hpw⟩
        exact ⟨w, by simp [List.find?_cons, hy, hw], hpw⟩

/-- C9: when no deduplicated correct replier exists the round is closed
with a null winner and no claim code; otherwise the seed is the
concatenation of the server secret, round id, post id and the sorted
eligible user ids, the winner is the entry of the sorted id list at the
index the deterministic selector picks, and the round is closed with
that winner, the supplied random claim code, and an expiry one hour from
now; `closeTrivia` writes exactly these fields on the round. -/
theorem C9_close_selects_winner (salt : Str) (trivia : TriviaRound)
    (correct : List ReplyIns) (blockHeight : Int) (rndCode : Str) (now : Int) :
    (closeIds correct = [] →
      closeCore salt trivia correct blockHeight rndCode now =
        (some ⟨blockHeight, closeSeed salt trivia correct, none, none, none,
           none⟩,
         CloseResp.noWinnersResp trivia.trivia_id
           (closeSeed salt trivia correct))) ∧
    (closeIds correct ≠ [] →
      ∃ w, (closeUniq correct).find? (fun r => decide (r.twitter_user_id =
          (closeIds correct).getD
            (deterministicPick (closeSeed salt trivia correct)
              ((closeIds correct).length : Int)).toNat [])) = some w ∧
        w.twitter_user_id = (closeIds correct).getD
          (deterministicPick (closeSeed salt trivia correct)
            ((closeIds correct).length : Int)).toNat [] ∧
        closeCore salt trivia correct blockHeight rndCode now =
          (some ⟨blockHeight, closeSeed salt trivia correct,
             some w.twitter_user_id, some w.tweet_id, some rndCode,
             some (now + 3600000)⟩,
           CloseResp.winnerResp trivia.trivia_id
             (closeSeed salt trivia correct) w.twitter_user_id w.tweet_id
             rndCode (now + 3600000))) ∧
    (∀ (db : DbState) (r : TriviaRound), r ∈ db.rounds →
      r.trivia_id = trivia.trivia_id → ∀ p : CloseParams,
      { r with statusClosed := true, block_height := some p.blockHeight,
               seed := some p.seed, winner_twitter_user_id := p.winnerUserId,
               winner_tweet_id := p.winnerTweetId, claim_code := p.claimCode,
               claim_expires_at := p.claimExpiresAt } ∈
        (closeTrivia db trivia.trivia_id p).rounds) := by
  refine ⟨?_, ?_, ?_⟩
  · intro h
    unfold closeCore
    rw [if_pos h]
  · intro h
    have hlen : (0 : Int) < ((closeIds correct).length : Int) := by
      exact_mod_cast List.length_pos.mpr h
    obtain ⟨_, hnn, hlt⟩ :=
      @deterministicPick_range (closeSeed salt trivia correct)
        ((closeIds correct).length : Int) hlen
    have hidx : (deterministicPick (closeSeed salt trivia correct)
        ((closeIds correct).length : Int)).toNat < (closeIds correct).length := by
      omega
    have hmem : (closeIds correct).getD
        (deterministicPick (closeSeed salt trivia correct)
          ((closeIds correct).length : Int)).toNat [] ∈ closeIds correct :=
      getD_mem _ _ hidx
    have hmem' : (closeIds correct).getD
        (deterministicPick (closeSeed salt trivia correct)
          ((closeIds correct).length : Int)).toNat [] ∈
        (closeUniq correct).map (fun r => r.twitter_user_id) := by
      rw [← mem_sortLex]
      exact hmem
    rcases List.mem_map.mp hmem' with ⟨r, hr, hru⟩
    have hex : ∃ x ∈ closeUniq correct,
        (fun q : ReplyIns => decide (q.twitter_user_id =
          (closeIds correct).getD
            (deterministicPick (closeSeed salt trivia correct)
              ((closeIds correct).length : Int)).toNat [])) x = true :=
      ⟨r, hr, decide_eq_true hru⟩
    rcases find?_exists _ _ hex with ⟨w, hfind, hpw⟩
    refine ⟨w, hfind, of_decide_eq_true hpw, ?_⟩
    unfold closeCore
    rw [if_neg h, hfind]
  · intro db r hr htid p
    refine List.mem_map.mpr ⟨r, hr, ?_⟩
    rw [if_pos htid]

/-- Witness for C9 with the single participant "u1" (the selector index
is then zero) and with the empty participant list. -/
theorem C9_close_selects_winner_witness :
    closeCore [115] roundW [] 7 [99] 0 =
      (some ⟨7, closeSeed [115] roundW [], none, none, none, none⟩,
       CloseResp.noWinnersResp roundW.trivia_id (closeSeed [115] roundW [])) ∧
    (∃ w, (closeUniq [replyU1]).find? (fun r => decide (r.twitter_user_id =
        (closeIds [replyU1]).getD
          (deterministicPick (closeSeed [115] roundW [replyU1])
            ((closeIds [replyU1]).length : Int)).toNat [])) = some w ∧
      w.twitter_user_id = (closeIds [replyU1]).getD
        (deterministicPick (closeSeed [115] roundW [replyU1])
          ((closeIds [replyU1]).length : Int)).toNat [] ∧
      closeCore [115] roundW [replyU1] 7 [99] 0 =
        (some ⟨7, closeSeed [115] roundW [replyU1], some w.twitter_user_id,
           some w.tweet_id, some [99], some 3600000⟩,
         CloseResp.winnerResp roundW.trivia_id (closeSeed [115] roundW [replyU1])
           w.twitter_user_id w.tweet_id [99] 3600000)) ∧
    { roundW with statusClosed := true, block_height := some 7,
                  seed := some (closeSeed [115] roundW [replyU1]),
                  winner_twitter_user_id := some [117, 49],
                  winner_tweet_id := some [49], claim_code := some [99],
                  claim_expires_at := some 3600000 } ∈
      (closeTrivia dbW roundW.trivia_id
        ⟨7, closeSeed [115] roundW [replyU1], some [117, 49], some [49],
         some [99], some 3600000⟩).rounds :=
  ⟨(C9_close_selects_winner [115] roundW [] 7 [99] 0).1 (by decide),
   (C9_close_selects_winner [115] roundW [replyU1] 7 [99] 0).2.1 (by decide),
   (C9_close_selects_winner [115] roundW [replyU1] 7 [99] 0).2.2 dbW roundW
     (by decide) (by decide)
     ⟨7, closeSeed [115] roundW [replyU1], some [117, 49], some [49],
      some [99], some 3600000⟩⟩

/-! ### Claim-endpoint theorems -/


theorem claimHandler_to_stage4
    (env : ClaimEnv) (db : DbState) (mem : List Bucket) (req : ClaimReq)
    (now : Int) (code addr : Str) (claim : TriviaRound)
    (h1 : (allowRateLimit mem (ipKeyOf req) env.claimRateLimit now).1 = true)
    (h2 : truthyFilter req.claimCode = some code)
    (h3 : truthyFilter req.address = some addr)
    (h4 : lockActiveB
      ((getClaimAttemptByCode db code).bind (fun a => a.lock_expires_at)) now =
      false)
    (h5 : getClaimByCode db code = some claim) :
    claimHandler env db mem req now =
      claimStage4 env
        (if lockPassedB
            ((getClaimAttemptByCode db code).bind (fun a => a.lock_expires_at))
            now then
          clearClaimAttemptLock db code now
         else db)
        (allowRateLimit mem (ipKeyOf req) env.claimRateLimit now).2 claim addr
        now := by
  have h5' : getClaimByCode
      (if lockPassedB
          ((getClaimAttemptByCode db code).bind (fun a => a.lock_expires_at))
          now then
        clearClaimAttemptLock db code now
       else db) code = some claim := by
    by_cases hcl : lockPassedB
        ((getClaimAttemptByCode db code).bind (fun a => a.lock_expires_at))
        now = true
    · rw [if_pos hcl]; exact h5
    · rw [if_neg hcl]; exact h5
  unfold claimHandler
  rw [if_neg (by simp [h1]), if_neg (by simp [h2, h3])]
  simp only [h2, h3, Option.getD_some]
  unfold claimStage2
  rw [if_neg (by simp [h4])]
  unfold claimStage3
  rw [h5']

theorem claimStage4_alreadyPaid
    (env : ClaimEnv) (db1 : DbState) (mem1 : List Bucket)
    (claim : TriviaRound) (addr : Str) (now : Int)
    (h6 : lockActiveB claim.lock_expires_at now = false)
    (h7 : truthyStr claim.winner_twitter_user_id = true →
      (allowRateLimit mem1 (userKeyOf (claim.winner_twitter_user_id.getD []))
        env.claimRateLimit now).1 = true)
    (h8 : truthyInt claim.used_at = true) :
    claimStage4 env db1 mem1 claim addr now =
      ⟨ClaimResp.alreadyPaid claim.trivia_id claim.txid,
       (if lockPassedB claim.lock_expires_at now then
         clearClaimLock db1 claim.trivia_id
        else db1),
       (if truthyStr claim.winner_twitter_user_id then
         (allowRateLimit mem1 (userKeyOf (claim.winner_twitter_user_id.getD []))
           env.claimRateLimit now).2
        else mem1),
       false⟩ := by
  unfold claimStage4
  rw [if_neg (by simp [h6])]
  unfold claimStage5 claimStage6
  by_cases htw : truthyStr claim.winner_twitter_user_id = true
  · rw [if_pos htw, if_pos htw, if_neg (by simp [h7 htw]), if_pos h8]
  · rw [if_neg htw, if_neg htw, if_pos h8]

/-- C6 counterexample: a claim whose code resolves to an already-used
round while an expired code-scoped lockout row exists.  The response is
the successful already-paid one, but the request does mutate durable
state: the lazy expiry clears the lockout row. -/
theorem C6_counterexample :
    getClaimByCode dbC6 [99] = some roundU ∧ roundU.used_at = some 5 ∧
    (claimHandler envC6 dbC6 [] reqC6 10).resp =
      ClaimResp.alreadyPaid [116] (some [120]) ∧
    (claimHandler envC6 dbC6 [] reqC6 10).db ≠ dbC6 := by
  decide

/-- C6 amended: a claim whose code resolves to a round with a truthy
`used_at` returns the successful already-paid response carrying the
round's stored transaction id, invokes no payment, and writes nothing to
the payout ledger, the daily spend, or any round's settlement fields;
the only possible durable writes are the lazy clearing of expired
lockout counters on the claim code or on the round. -/
theorem C6_already_used_idempotent
    (env : ClaimEnv) (db : DbState) (mem : List Bucket) (req : ClaimReq)
    (now : Int) (code addr : Str) (claim : TriviaRound)
    (h1 : (allowRateLimit mem (ipKeyOf req) env.claimRateLimit now).1 = true)
    (h2 : truthyFilter req.claimCode = some code)
    (h3 : truthyFilter req.address = some addr)
    (h4 : lockActiveB
      ((getClaimAttemptByCode db code).bind (fun a => a.lock_expires_at)) now =
      false)
    (h5 : getClaimByCode db code = some claim)
    (h6 : lockActiveB claim.lock_expires_at now = false)
    (h7 : truthyStr claim.winner_twitter_user_id = true →
      (allowRateLimit (allowRateLimit mem (ipKeyOf req) env.claimRateLimit
          now).2
        (userKeyOf (claim.winner_twitter_user_id.getD []))
        env.claimRateLimit now).1 = true)
    (h8 : truthyInt claim.used_at = true) :
    (claimHandler env db mem req now).resp =
      ClaimResp.alreadyPaid claim.trivia_id claim.txid ∧
    (claimHandler env db mem req now).paymentInvoked = false ∧
    (claimHandler env db mem req now).db.payouts = db.payouts ∧
    (claimHandler env db mem req now).db.dailySpend = db.dailySpend ∧
    ((claimHandler env db mem req now).db.rounds = db.rounds ∨
      (claimHandler env db mem req now).db.rounds = db.rounds.map (fun r =>
        if r.trivia_id = claim.trivia_id then
          { r with invalid_attempts := 0, lock_expires_at := none }
        else r)) ∧
    ((claimHandler env db mem req now).db.attempts = db.attempts ∨
      (claimHandler env db mem req now).db.attempts = db.attempts.map (fun a =>
        if a.claim_code = code then
          { a with invalid_attempts := 0, lock_expires_at := none,
                   updated_at := now }
        else a)) := by
  rw [claimHandler_to_stage4 env db mem req now code addr claim h1 h2 h3 h4 h5,
    claimStage4_alreadyPaid env _ _ claim addr now h6 h7 h8]
  refine ⟨rfl, rfl, ?_, ?_, ?_, ?_⟩
  · by_cases hrl : lockPassedB claim.lock_expires_at now = true <;>
      by_cases hcl : lockPassedB
        ((getClaimAttemptByCode db code).bind (fun a => a.lock_expires_at))
        now = true <;>
      simp [hrl, hcl, clearClaimLock, clearClaimAttemptLock]
  · by_cases hrl : lockPassedB claim.lock_expires_at now = true <;>
      by_cases hcl : lockPassedB
        ((getClaimAttemptByCode db code).bind (fun a => a.lock_expires_at))
        now = true <;>
      simp [hrl, hcl, clearClaimLock, clearClaimAttemptLock]
  · by_cases hrl : lockPassedB claim.lock_expires_at now = true <;>
      by_cases hcl : lockPassedB
        ((getClaimAttemptByCode db code).bind (fun a => a.lock_expires_at))
        now = true
    · right; simp [hrl, hcl, clearClaimLock, clearClaimAttemptLock]
    · right; simp [hrl, hcl, clearClaimLock, clearClaimAttemptLock]
    · left; simp [hrl, hcl, clearClaimLock, clearClaimAttemptLock]
    · left; simp [hrl, hcl, clearClaimLock, clearClaimAttemptLock]
  · by_cases hrl : lockPassedB claim.lock_expires_at now = true <;>
      by_cases hcl : lockPassedB
        ((getClaimAttemptByCode db code).bind (fun a => a.lock_expires_at))
        now = true
    · right; simp [hrl, hcl, clearClaimLock, clearClaimAttemptLock]
    · left; simp [hrl, hcl, clearClaimLock, clearClaimAttemptLock]
    · right; simp [hrl, hcl, clearClaimLock, clearClaimAttemptLock]
    · left; simp [hrl, hcl, clearClaimLock, clearClaimAttemptLock]

/-- Witness for the amended C6 theorem at the concrete store `dbC6`. -/
theorem C6_already_used_idempotent_witness :
    (claimHandler envC6 dbC6 [] reqC6 10).resp =
      ClaimResp.alreadyPaid roundU.trivia_id roundU.txid ∧
    (claimHandler envC6 dbC6 [] reqC6 10).paymentInvoked = false ∧
    (claimHandler envC6 dbC6 [] reqC6 10).db.payouts = dbC6.payouts ∧
    (claimHandler envC6 dbC6 [] reqC6 10).db.dailySpend = dbC6.dailySpend ∧
    ((claimHandler envC6 dbC6 [] reqC6 10).db.rounds = dbC6.rounds ∨
      (claimHandler envC6 dbC6 [] reqC6 10).db.rounds = dbC6.rounds.map (fun r =>
        if r.trivia_id = roundU.trivia_id then
          { r with invalid_attempts := 0, lock_expires_at := none }
        else r)) ∧
    ((claimHandler envC6 dbC6 [] reqC6 10).db.attempts = dbC6.attempts ∨
      (claimHandler envC6 dbC6 [] reqC6 10).db.attempts = dbC6.attempts.map
        (fun a =>
          if a.claim_code = [99] then
            { a with invalid_attempts := 0, lock_expires_at := none,
                     updated_at := 10 }
          else a)) :=
  C6_already_used_idempotent envC6 dbC6 [] reqC6 10 [99] [97] roundU
    (by decide) (by decide) (by decide) (by decide) (by decide) (by decide)
    (by decide) (by decide)

theorem claimStage7_caps (env : ClaimEnv) (db2 : DbState) (mem2 : List Bucket)
    (claim : TriviaRound) (addr : Str) (now : Int)
    (h14 : env.dailyCap < getDailySpend db2 (toDayKey now) + claim.reward_rmz ∨
      env.maxWinPerUser ≤ countWinsForUser db2 (toDayKey now)
        (claim.winner_twitter_user_id.getD []) ∨
      env.maxRmzPerAddress <
        sumAddressSpend db2 (toDayKey now) addr + claim.reward_rmz) :
    claimStage7 env db2 mem2 claim addr now =
      ⟨ClaimResp.rateLimited, db2, mem2, false⟩ := by
  unfold claimStage7
  by_cases hb1 : env.dailyCap < getDailySpend db2 (toDayKey now) + claim.reward_rmz
  · rw [if_pos hb1]
  · rw [if_neg hb1]
    by_cases hb2 : countWinsForUser db2 (toDayKey now)
        (claim.winner_twitter_user_id.getD []) ≥ env.maxWinPerUser
    · rw [if_pos hb2]
    · rw [if_neg hb2, if_pos ((h14.resolve_left hb1).resolve_left hb2)]

theorem claimStage4_caps (env : ClaimEnv) (db1 : DbState) (mem1 : List Bucket)
    (claim : TriviaRound) (addr : Str) (now : Int)
    (h6 : lockActiveB claim.lock_expires_at now = false)
    (h7 : (allowRateLimit mem1 (userKeyOf (claim.winner_twitter_user_id.getD []))
      env.claimRateLimit now).1 = true)
    (h8 : truthyInt claim.used_at = false)
    (h9 : isValidEcashAddress addr = true)
    (h10 : expiredB claim.claim_expires_at now = false)
    (h11 : truthyStr claim.winner_twitter_user_id = true)
    (h12 : env.gatingConfigured = true)
    (h13 : env.ownsTokenRes = true)
    (h14 : env.dailyCap < getDailySpend db1 (toDayKey now) + claim.reward_rmz ∨
      env.maxWinPerUser ≤ countWinsForUser db1 (toDayKey now)
        (claim.winner_twitter_user_id.getD []) ∨
      env.maxRmzPerAddress <
        sumAddressSpend db1 (toDayKey now) addr + claim.reward_rmz) :
    claimStage4 env db1 mem1 claim addr now =
      ⟨ClaimResp.rateLimited,
       (if lockPassedB claim.lock_expires_at now then
         clearClaimLock db1 claim.trivia_id
        else db1),
       (allowRateLimit mem1 (userKeyOf (claim.winner_twitter_user_id.getD []))
         env.claimRateLimit now).2,
       false⟩ := by
  unfold claimStage4
  rw [if_neg (by simp [h6])]
  unfold claimStage5
  rw [if_pos h11, if_neg (by simp [h7])]
  unfold claimStage6
  rw [if_neg (by simp [h8]), if_neg (by simp [h9]), if_neg (by simp [h10]),
    if_neg (by simp [h11]), if_neg (by simp [h12]), if_neg (by simp [h13])]
  refine claimStage7_caps env _ _ claim addr now ?_
  by_cases hrl : lockPassedB claim.lock_expires_at now = true
  · rw [if_pos hrl]
    exact h14
  · rw [if_neg hrl]
    exact h14

/-- C8: when a claim request that has passed every earlier gate breaches
the global daily cap, the per-user daily win count, or the per-address
daily spend limit, the response is the rate-limited one, the external
payment executor is not invoked, nothing is written to the payout ledger
or the daily spend, and no invalid-attempt counter is recorded against
the round or the claim code (durable counters are at most lazily cleared
when their locks had expired). -/
theorem C8_caps_rate_limited
    (env : ClaimEnv) (db : DbState) (mem : List Bucket) (req : ClaimReq)
    (now : Int) (code addr : Str) (claim : TriviaRound)
    (h1 : (allowRateLimit mem (ipKeyOf req) env.claimRateLimit now).1 = true)
    (h2 : truthyFilter req.claimCode = some code)
    (h3 : truthyFilter req.address = some addr)
    (h4 : lockActiveB
      ((getClaimAttemptByCode db code).bind (fun a => a.lock_expires_at)) now =
      false)
    (h5 : getClaimByCode db code = some claim)
    (h6 : lockActiveB claim.lock_expires_at now = false)
    (h7 : (allowRateLimit (allowRateLimit mem (ipKeyOf req) env.claimRateLimit
          now).2
      (userKeyOf (claim.winner_twitter_user_id.getD []))
      env.claimRateLimit now).1 = true)
    (h8 : truthyInt claim.used_at = false)
    (h9 : isValidEcashAddress addr = true)
    (h10 : expiredB claim.claim_expires_at now = false)
    (h11 : truthyStr claim.winner_twitter_user_id = true)
    (h12 : env.gatingConfigured = true)
    (h13 : env.ownsTokenRes = true)
    (h14 : env.dailyCap < getDailySpend db (toDayKey now) + claim.reward_rmz ∨
      env.maxWinPerUser ≤ countWinsForUser db (toDayKey now)
        (claim.winner_twitter_user_id.getD []) ∨
      env.maxRmzPerAddress <
        sumAddressSpend db (toDayKey now) addr + claim.reward_rmz) :
    (claimHandler env db mem req now).resp = ClaimResp.rateLimited ∧
    (claimHandler env db mem req now).paymentInvoked = false ∧
    (claimHandler env db mem req now).db.payouts = db.payouts ∧
    (claimHandler env db mem req now).db.dailySpend = db.dailySpend ∧
    ((claimHandler env db mem req now).db.rounds = db.rounds ∨
      (claimHandler env db mem req now).db.rounds = db.rounds.map (fun r =>
        if r.trivia_id = claim.trivia_id then
          { r with invalid_attempts := 0, lock_expires_at := none }
        else r)) ∧
    ((claimHandler env db mem req now).db.attempts = db.attempts ∨
      (claimHandler env db mem req now).db.attempts = db.attempts.map (fun a =>
        if a.claim_code = code then
          { a with invalid_attempts := 0, lock_expires_at := none,
                   updated_at := now }
        else a)) := by
  rw [claimHandler_to_stage4 env db mem req now code addr claim h1 h2 h3 h4 h5]
  have h14' : env.dailyCap <
      getDailySpend
        (if lockPassedB
            ((getClaimAttemptByCode db code).bind (fun a => a.lock_expires_at))
            now then
          clearClaimAttemptLock db code now
         else db) (toDayKey now) + claim.reward_rmz ∨
      env.maxWinPerUser ≤ countWinsForUser
        (if lockPassedB
            ((getClaimAttemptByCode db code).bind (fun a => a.lock_expires_at))
            now then
          clearClaimAttemptLock db code now
         else db) (toDayKey now) (claim.winner_twitter_user_id.getD []) ∨
      env.maxRmzPerAddress < sumAddressSpend
        (if lockPassedB
            ((getClaimAttemptByCode db code).bind (fun a => a.lock_expires_at))
            now then
          clearClaimAttemptLock db code now
         else db) (toDayKey now) addr + claim.reward_rmz := by
    by_cases hcl : lockPassedB
        ((getClaimAttemptByCode db code).bind (fun a => a.lock_expires_at))
        now = true
    · rw [if_pos hcl]
      exact h14
    · rw [if_neg hcl]
      exact h14
  rw [claimStage4_caps env _ _ claim addr now h6 h7 h8 h9 h10 h11 h12 h13 h14']
  refine ⟨rfl, rfl, ?_, ?_, ?_, ?_⟩
  · by_cases hrl : lockPassedB claim.lock_expires_at now = true <;>
      by_cases hcl : lockPassedB
        ((getClaimAttemptByCode db code).bind (fun a => a.lock_expires_at))
        now = true <;>
      simp [hrl, hcl, clearClaimLock, clearClaimAttemptLock]
  · by_cases hrl : lockPassedB claim.lock_expires_at now = true <;>
      by_cases hcl : lockPassedB
        ((getClaimAttemptByCode db code).bind (fun a => a.lock_expires_at))
        now = true <;>
      simp [hrl, hcl, clearClaimLock, clearClaimAttemptLock]
  · by_cases hrl : lockPassedB claim.lock_expires_at now = true <;>
      by_cases hcl : lockPassedB
        ((getClaimAttemptByCode db code).bind (fun a => a.lock_expires_at))
        now = true
    · right; simp [hrl, hcl, clearClaimLock, clearClaimAttemptLock]
    · right; simp [hrl, hcl, clearClaimLock, clearClaimAttemptLock]
    · left; simp [hrl, hcl, clearClaimLock, clearClaimAttemptLock]
    · left; simp [hrl, hcl, clearClaimLock, clearClaimAttemptLock]
  · by_cases hrl : lockPassedB claim.lock_expires_at now = true <;>
      by_cases hcl : lockPassedB
        ((getClaimAttemptByCode db code).bind (fun a => a.lock_expires_at))
        now = true
    · right; simp [hrl, hcl, clearClaimLock, clearClaimAttemptLock]
    · left; simp [hrl, hcl, clearClaimLock, clearClaimAttemptLock]
    · right; simp [hrl, hcl, clearClaimLock, clearClaimAttemptLock]
    · left; simp [hrl, hcl, clearClaimLock, clearClaimAttemptLock]

/-- Witness for C8: with the daily cap already reached, a fresh valid
claim for three more units is rate limited and settles nothing. -/
theorem C8_caps_rate_limited_witness :
    (claimHandler envC6 db8 [] req8 10).resp = ClaimResp.rateLimited ∧
    (claimHandler envC6 db8 [] req8 10).paymentInvoked = false ∧
    (claimHandler envC6 db8 [] req8 10).db.payouts = db8.payouts ∧
    (claimHandler envC6 db8 [] req8 10).db.dailySpend = db8.dailySpend ∧
    ((claimHandler envC6 db8 [] req8 10).db.rounds = db8.rounds ∨
      (claimHandler envC6 db8 [] req8 10).db.rounds = db8.rounds.map (fun r =>
        if r.trivia_id = round8.trivia_id then
          { r with invalid_attempts := 0, lock_expires_at := none }
        else r)) ∧
    ((claimHandler envC6 db8 [] req8 10).db.attempts = db8.attempts ∨
      (claimHandler envC6 db8 [] req8 10).db.attempts = db8.attempts.map
        (fun a =>
          if a.claim_code = [99] then
            { a with invalid_attempts := 0, lock_expires_at := none,
                     updated_at := 10 }
          else a)) :=
  C8_caps_rate_limited envC6 db8 [] req8 10 [99] addr8 round8
    (by decide) (by decide) (by decide) (by decide) (by decide) (by decide)
    (by decide) (by decide) (by decide) (by decide) (by decide) (by decide)
    (by decide) (by decide)

end XnAgent
